import Mathlib

/-!
# The etcd node mode controller (`etcd/etcd.go`)

A shallow embedding of `Server` and its operations `New`, `SetTick`, `Stop`,
`ServeHTTP`, `ServeRaftHTTP` and `Run`.

Modelling conventions:

* `int64` values (modes, ids, durations) are integers; every statement that
  quantifies over a mode quantifies over all integers, which covers `int64`.
* A pointer field (`s.p`, `s.s`) is an `Option`: `none` is the nil pointer.
* Calls into collaborators whose bodies live outside `etcd.go` (the roles, the
  client, the peer hub, the channel, `net/http`) are recorded as `Event`s, in
  program order.  Calling a method on a pointer records the receiver as it is,
  nil included.
* The values returned by the successive blocking `run()` calls of the roles
  are supplied as a list; when the list is exhausted the active role's `run()`
  has not returned.
* `stopc` is created by `make(chan struct{})`: it is unbuffered, so a send
  completes only against a receiver and a receive only against a sender.  The
  presence of the partner is a boolean argument of `Run` and `Stop`.
-/

namespace Etcd

/-! ## Constants (etcd.go:12-18) -/

/-- First spec of the const block: `raftPrefix = "/raft"` (iota = 0 on this line). -/
def raftPrefix : String := "/raft"

/-- Second spec of the block: `participantMode int64 = iota`, so iota = 1. -/
def participantMode : Int := 1

/-- Third spec of the block, implicit repetition of `int64 = iota`: iota = 2. -/
def standbyMode : Int := 2

/-- Fourth spec of the block: iota = 3. -/
def stopMode : Int := 3

/-- The const specs of the block at etcd.go:12-18, in source order. -/
def constSpecs : List String := ["raftPrefix", "participantMode", "standbyMode", "stopMode"]

/-- The value of `iota` in a const spec: the index of the spec in its block,
starting at zero. -/
def iotaOf (name : String) : Int := (constSpecs.indexOf name : Nat)

/-! ## Collaborators referenced by `Server` -/

/-- A `tls.Config`; only `InsecureSkipVerify` is set by `etcd.go`, the rest is
whatever the configuration produced. -/
structure TLSConfig where
  insecureSkipVerify : Bool
  material : List String
deriving DecidableEq, Repr

/-- The `http.Client{Transport: tr}` built in `New`, with `tr.TLSClientConfig = tc`. -/
structure HTTPClient where
  tlsClientConfig : TLSConfig
deriving DecidableEq, Repr

/-- Result of `newClient(tc)`. -/
structure V2Client where
  tc : TLSConfig
deriving DecidableEq, Repr

/-- The constructor `newClient(tc)`. -/
def newClient (tc : TLSConfig) : V2Client := ⟨tc⟩

/-- Result of `newPeerHub(seeds, client)`. -/
structure PeerHub where
  seeds : List String
  c : HTTPClient
deriving DecidableEq, Repr

/-- The constructor `newPeerHub(c.Peers, client)`. -/
def newPeerHub (seeds : List String) (c : HTTPClient) : PeerHub := ⟨seeds, c⟩

/-- A `map[string]bool`: association list with at most one entry per key. -/
abbrev NodeMap := List (String × Bool)

/-- The empty map `make(map[string]bool)`. -/
def NodeMap.empty : NodeMap := []

/-- The assignment `m[k] = v`: overwrite the entry of `k` if present, add it otherwise. -/
def NodeMap.set (m : NodeMap) (k : String) (v : Bool) : NodeMap :=
  if m.any (fun e => e.1 == k) then m.map (fun e => if e.1 == k then (k, v) else e)
  else m ++ [(k, v)]

/-- The lookup `m[k]` with the comma-ok form: the value stored under `k`, if any. -/
def NodeMap.get? (m : NodeMap) (k : String) : Option Bool :=
  (m.find? (fun e => e.1 == k)).map Prod.snd

/-- The object returned by `newParticipant`, identified by the arguments it was built from. -/
structure Participant where
  id : Int
  pubAddr : String
  raftPubAddr : String
  nodes : NodeMap
  client : V2Client
  peerHub : PeerHub
  tickDuration : Int
deriving DecidableEq, Repr

/-- The object returned by `newStandby`, identified by the arguments it was built from. -/
structure Standby where
  id : Int
  pubAddr : String
  raftPubAddr : String
  nodes : NodeMap
  client : V2Client
  peerHub : PeerHub
deriving DecidableEq, Repr

/-- The constructor `newParticipant(id, pubAddr, raftPubAddr, nodes, client, peerHub, tickDuration)`. -/
def newParticipant (id : Int) (pubAddr raftPubAddr : String) (nodes : NodeMap)
    (client : V2Client) (peerHub : PeerHub) (tickDuration : Int) : Participant :=
  ⟨id, pubAddr, raftPubAddr, nodes, client, peerHub, tickDuration⟩

/-- The constructor `newStandby(id, pubAddr, raftPubAddr, nodes, client, peerHub)`. -/
def newStandby (id : Int) (pubAddr raftPubAddr : String) (nodes : NodeMap)
    (client : V2Client) (peerHub : PeerHub) : Standby :=
  ⟨id, pubAddr, raftPubAddr, nodes, client, peerHub⟩

/-- The part of `config.Config` read by `New`.  `sanitizeErr` is the result of
`c.Sanitize()`, `peerScheme` of `c.PeerTLSInfo().Scheme()` and `peerClientConfig`
of `c.PeerTLSInfo().ClientConfig()` (`none` when it returns an error). -/
structure Config where
  addr : String
  peerAddr : String
  peers : List String
  sanitizeErr : Option String
  peerScheme : String
  peerClientConfig : Option TLSConfig
deriving DecidableEq, Repr

/-- An `*http.Request`; the controller never inspects it. -/
structure Request where
  method : String
  path : String
deriving DecidableEq, Repr

/-! ## The server (etcd.go:20-36) -/

/-- The `Server` struct.  `stopc` is an unbuffered channel and holds no data. -/
structure Server where
  config : Config
  id : Int
  pubAddr : String
  raftPubAddr : String
  tickDuration : Int
  mode : Int
  nodes : NodeMap
  p : Option Participant
  s : Option Standby
  client : V2Client
  peerHub : PeerHub
  stopc : Unit
deriving DecidableEq, Repr

/-- Calls made by the controller into its collaborators, and its own writes of
the mode register. -/
inductive Event where
  /-- The assignment `s.p = newParticipant(...)`. -/
  | newParticipant (p : Participant)
  /-- The assignment `s.s = newStandby(...)`. -/
  | newStandby (sb : Standby)
  /-- The write `s.mode.Set(m)`. -/
  | modeSet (m : Int)
  /-- The call `s.p.run()` returned `ret`. -/
  | participantRun (p : Option Participant) (ret : Int)
  /-- The call `s.s.run()` returned `ret`. -/
  | standbyRun (sb : Option Standby) (ret : Int)
  /-- The call `s.p.stop()`. -/
  | participantStop (p : Option Participant)
  /-- The call `s.s.stop()`. -/
  | standbyStop (sb : Option Standby)
  /-- The call `s.client.CloseConnections()`. -/
  | closeConnections (c : V2Client)
  /-- The call `s.peerHub.stop()`. -/
  | peerHubStop (h : PeerHub)
  /-- The send `s.stopc <- struct{}{}` completed. -/
  | stopcSend
  /-- The receive `<-s.stopc` completed. -/
  | stopcRecv
  /-- The call `panic(msg)`. -/
  | panic (msg : String)
deriving DecidableEq, Repr

/-- What an HTTP entry point of the server does with a request. -/
inductive Dispatch where
  /-- The call `s.p.ServeHTTP(w, r)`. -/
  | participantServeHTTP (p : Option Participant) (r : Request)
  /-- The call `s.p.raftHandler().ServeHTTP(w, r)`. -/
  | participantRaftServeHTTP (p : Option Participant) (r : Request)
  /-- The forwarding handler of the standby, `s.s.ServeHTTP(w, r)`. -/
  | standbyServeHTTP (sb : Option Standby) (r : Request)
  /-- The call `http.NotFound(w, r)`. -/
  | notFound (r : Request)
deriving DecidableEq, Repr

/-- Whether a dispatch invokes a handler of a role object. -/
def Dispatch.invokesRole : Dispatch → Bool
  | .notFound _ => false
  | _ => true

/-! ## `New` (etcd.go:38-78) -/

/-- The loop `for _, seed := range c.Peers { s.nodes[seed] = true }`. -/
def seedNodes (peers : List String) (m : NodeMap) : NodeMap :=
  peers.foldl (fun acc seed => acc.set seed true) m

/-- Lines 54-77 of `New`, once the TLS policy `tc` is settled: the transport and
`http.Client` around `tc`, the `Server` literal and the seeding of `s.nodes`.
`defaultTickDuration` is a package constant declared outside `etcd.go` and is
taken as a parameter. -/
def newServer (defaultTickDuration : Int) (c : Config) (id : Int) (tc : TLSConfig) : Server :=
  let client : HTTPClient := { tlsClientConfig := tc }
  let s : Server :=
    { config := c
      id := id
      pubAddr := c.addr
      raftPubAddr := c.peerAddr
      tickDuration := defaultTickDuration
      mode := stopMode
      nodes := NodeMap.empty
      p := none
      s := none
      client := newClient tc
      peerHub := newPeerHub c.peers client
      stopc := () }
  { s with nodes := seedNodes c.peers s.nodes }

/-- The constructor `New(c, id)`; `log.Fatalf` / `log.Fatal` end the process and
are the error results. -/
def New (defaultTickDuration : Int) (c : Config) (id : Int) : Except String Server :=
  match c.sanitizeErr with
  | some _ => .error "failed sanitizing configuration"
  | none =>
    if c.peerScheme = "https" then
      match c.peerClientConfig with
      | none => .error "failed to create raft transporter tls"
      | some tc => .ok (newServer defaultTickDuration c id tc)
    else
      .ok (newServer defaultTickDuration c id { insecureSkipVerify := true, material := [] })

/-! ## `SetTick` (etcd.go:80-82) -/

/-- The assignment `s.tickDuration = tick`. -/
def SetTick (s : Server) (tick : Int) : Server :=
  { s with tickDuration := tick }

/-! ## HTTP entry points (etcd.go:100-120) -/

/-- The method `Server.ServeHTTP`: `case participantMode, standbyMode: s.p.ServeHTTP(w, r)`,
`default: http.NotFound(w, r)`. -/
def ServeHTTP (s : Server) (r : Request) : Dispatch :=
  if s.mode = participantMode ∨ s.mode = standbyMode then
    .participantServeHTTP s.p r
  else
    .notFound r

/-- The method `Server.ServeRaftHTTP`: `case participantMode: s.p.raftHandler().ServeHTTP(w, r)`,
`default: http.NotFound(w, r)`. -/
def ServeRaftHTTP (s : Server) (r : Request) : Dispatch :=
  if s.mode = participantMode then
    .participantRaftServeHTTP s.p r
  else
    .notFound r

/-! ## `Stop` (etcd.go:84-98) -/

/-- How a call of a server operation ends. -/
inductive Outcome where
  /-- The call returned to its caller. -/
  | returned
  /-- The call ended in `panic(msg)`. -/
  | panicked (msg : String)
  /-- The call is inside `s.p.run()`, which has not returned. -/
  | inParticipantRun
  /-- The call is inside `s.s.run()`, which has not returned. -/
  | inStandbyRun
  /-- The call is blocked in `s.stopc <- struct{}{}`: nobody receives. -/
  | blockedOnSend
  /-- The call is blocked in `<-s.stopc`: nobody sends. -/
  | blockedOnRecv
deriving DecidableEq, Repr

/-- Result of `Stop`: the calls it made in order, the server afterwards, and how it ended. -/
structure StopResult where
  events : List Event
  server : Server
  outcome : Outcome
deriving DecidableEq, Repr

/-- The method `Server.Stop`.  `sender` tells whether `Run` sends on `stopc` while
this call waits in `<-s.stopc`. -/
def Stop (sender : Bool) (s : Server) : StopResult :=
  if s.mode = stopMode then
    { events := [], server := s, outcome := .returned }
  else
    let m := s.mode
    let s1 : Server := { s with mode := stopMode }
    let roleStop : List Event :=
      if m = participantMode then [.participantStop s1.p]
      else if m = standbyMode then [.standbyStop s1.s]
      else []
    if sender then
      { events := .modeSet stopMode :: roleStop ++ [.stopcRecv], server := s1, outcome := .returned }
    else
      { events := .modeSet stopMode :: roleStop, server := s1, outcome := .blockedOnRecv }

/-! ## `Run` (etcd.go:122-143) -/

/-- One executed statement of `Run`: the call it made and the server right after it. -/
structure Step where
  ev : Event
  post : Server
deriving DecidableEq, Repr

/-- Result of `Run`: the executed statements in order, the server afterwards, and how it ended. -/
structure RunResult where
  steps : List Step
  server : Server
  outcome : Outcome
deriving DecidableEq, Repr

/-- Put already executed statements in front of the rest of an execution. -/
def RunResult.after (pre : List Step) (r : RunResult) : RunResult :=
  { r with steps := pre ++ r.steps }

/-- The calls of an execution, in order. -/
def RunResult.events (r : RunResult) : List Event := r.steps.map Step.ev

/-- The `for { switch next { ... } }` loop of `Run`, entered with the server `s`
and the requested mode `next`.  `rets` are the values the coming `run()` calls
return; `receiver` tells whether a `Stop` call is receiving on `stopc`. -/
def runLoop (receiver : Bool) (s : Server) (next : Int) (rets : List Int) : RunResult :=
  if next = participantMode then
    let p := newParticipant s.id s.pubAddr s.raftPubAddr s.nodes s.client s.peerHub s.tickDuration
    let s1 : Server := { s with p := some p }
    let s2 : Server := { s1 with mode := participantMode }
    match rets with
    | [] =>
      { steps := [⟨.newParticipant p, s1⟩, ⟨.modeSet participantMode, s2⟩]
        server := s2, outcome := .inParticipantRun }
    | ret :: rest =>
      (runLoop receiver s2 ret rest).after
        [⟨.newParticipant p, s1⟩, ⟨.modeSet participantMode, s2⟩, ⟨.participantRun s2.p ret, s2⟩]
  else if next = standbyMode then
    let sb := newStandby s.id s.pubAddr s.raftPubAddr s.nodes s.client s.peerHub
    let s1 : Server := { s with s := some sb }
    let s2 : Server := { s1 with mode := standbyMode }
    match rets with
    | [] =>
      { steps := [⟨.newStandby sb, s1⟩, ⟨.modeSet standbyMode, s2⟩]
        server := s2, outcome := .inStandbyRun }
    | ret :: rest =>
      (runLoop receiver s2 ret rest).after
        [⟨.newStandby sb, s1⟩, ⟨.modeSet standbyMode, s2⟩, ⟨.standbyRun s2.s ret, s2⟩]
  else if next = stopMode then
    if receiver then
      { steps := [⟨.closeConnections s.client, s⟩, ⟨.peerHubStop s.peerHub, s⟩, ⟨.stopcSend, s⟩]
        server := s, outcome := .returned }
    else
      { steps := [⟨.closeConnections s.client, s⟩, ⟨.peerHubStop s.peerHub, s⟩]
        server := s, outcome := .blockedOnSend }
  else
    { steps := [⟨.panic "unsupport mode", s⟩], server := s, outcome := .panicked "unsupport mode" }
termination_by structural rets

/-- The method `Server.Run`: `next := participantMode`, then the loop. -/
def Run (receiver : Bool) (s : Server) (rets : List Int) : RunResult :=
  runLoop receiver s participantMode rets

/-! ## Vocabulary for statements about `Run` -/

/-- The participant `Run` builds from the server fields: the right-hand side of line 127. -/
def Server.buildParticipant (s : Server) : Participant :=
  newParticipant s.id s.pubAddr s.raftPubAddr s.nodes s.client s.peerHub s.tickDuration

/-- The standby `Run` builds from the server fields: the right-hand side of line 131. -/
def Server.buildStandby (s : Server) : Standby :=
  newStandby s.id s.pubAddr s.raftPubAddr s.nodes s.client s.peerHub

/-- The server once lines 127-128 have run. -/
def Server.asParticipant (s : Server) : Server :=
  { s with p := some s.buildParticipant, mode := participantMode }

/-- The server once lines 131-132 have run. -/
def Server.asStandby (s : Server) : Server :=
  { s with s := some s.buildStandby, mode := standbyMode }

/-- The values written to the mode register, in order. -/
def modeWrites : List Event → List Int
  | [] => []
  | .modeSet m :: es => m :: modeWrites es
  | _ :: es => modeWrites es

/-- Whether an event is one of the shutdown actions of lines 135-137. -/
def Event.isShutdown : Event → Bool
  | .closeConnections _ => true
  | .peerHubStop _ => true
  | .stopcSend => true
  | _ => false

/-- Whether an event is the construction of a role (lines 127 and 131). -/
def Event.isConstruction : Event → Bool
  | .newParticipant _ => true
  | .newStandby _ => true
  | _ => false

/-- Whether an event is the return of a role's `run()` with the value `m`. -/
def Event.isRunReturn (m : Int) : Event → Bool
  | .participantRun _ ret => decide (ret = m)
  | .standbyRun _ ret => decide (ret = m)
  | _ => false

/-- The three calls one loop iteration makes for a role of kind `k` built from
the fields of `s`, when its `run()` returns `ret`: construct, set the mode, run. -/
def roleEvents (s : Server) (k ret : Int) : List Event :=
  if k = participantMode then
    [.newParticipant s.buildParticipant, .modeSet participantMode,
     .participantRun (some s.buildParticipant) ret]
  else
    [.newStandby s.buildStandby, .modeSet standbyMode, .standbyRun (some s.buildStandby) ret]

/-- The calls of the `stopMode` case: close, stop the hub, and the send when somebody receives. -/
def shutdownEvents (receiver : Bool) (s : Server) : List Event :=
  .closeConnections s.client :: .peerHubStop s.peerHub :: (if receiver then [.stopcSend] else [])

/-- The calls of a whole execution in which the roles return `rets` in turn: the
first role is a participant, each later role has the kind the previous one returned. -/
def expectedEvents (s : Server) : Int → List Int → List Event
  | _, [] => []
  | k, ret :: rest => roleEvents s k ret ++ expectedEvents s ret rest

/-- A role object: a participant or a standby. -/
inductive Role where
  /-- A participant object. -/
  | participant (p : Participant)
  /-- A standby object. -/
  | standby (sb : Standby)
deriving DecidableEq, Repr

/-- The mode constant that stands for a role of this type. -/
def Role.mode : Role → Int
  | .participant _ => participantMode
  | .standby _ => standbyMode

/-- The role object the mode register selects, the way `Stop` selects it:
`s.p` under participant, `s.s` under standby, none under any other value. -/
def Server.dispatchedRole (s : Server) : Option Role :=
  if s.mode = participantMode then s.p.map Role.participant
  else if s.mode = standbyMode then s.s.map Role.standby
  else none

/-- The current role after one more call: a construction publishes the new
object as current, every other call leaves the current role as it was. -/
def stepRole (cur : Option Role) : Event → Option Role
  | .newParticipant p => some (.participant p)
  | .newStandby sb => some (.standby sb)
  | _ => cur

/-- The current role after the calls `evs`, starting from `cur`. -/
def currentRoleFrom (cur : Option Role) (evs : List Event) : Option Role :=
  evs.foldl stepRole cur

/-- The current role after the calls `evs` of an execution of `Run`: the most
recently constructed role object, none before the first construction. -/
def currentRole (evs : List Event) : Option Role := currentRoleFrom none evs

/-- A role is current, the mode register equals its mode, and it is the object
the register selects. -/
def RoleMatchesMode (cur : Option Role) (st : Server) : Prop :=
  ∃ role, cur = some role ∧ st.mode = role.mode ∧ st.dispatchedRole = some role

/-- Along the steps, starting with the current role `cur`: after every step
that is not a construction the current role matches the mode register. -/
def holdsAlong (cur : Option Role) : List Step → Prop
  | [] => True
  | st :: rest =>
    (st.ev.isConstruction = false → RoleMatchesMode (stepRole cur st.ev) st.post) ∧
      holdsAlong (stepRole cur st.ev) rest

/-- The two servers hold the same configuration, identity, addresses, heartbeat
interval, node map, client and peer hub: every field but `mode`, `p` and `s`. -/
def Server.sharedWith (a b : Server) : Prop :=
  a.config = b.config ∧ a.id = b.id ∧ a.pubAddr = b.pubAddr ∧ a.raftPubAddr = b.raftPubAddr ∧
  a.tickDuration = b.tickDuration ∧ a.nodes = b.nodes ∧ a.client = b.client ∧
  a.peerHub = b.peerHub

/-! ## Interleaved executions of `Run`, `Stop` and `SetTick`

`Run` occupies one goroutine, a caller of `Stop` another, and `SetTick` may be
called from anywhere.  An interleaved execution is a sequence of atomic
actions: one statement of `Run`, one statement of `Stop`, the return of the
`run()` call `Run` is blocked in, the meeting of the send and the receive on
the unbuffered `stopc`, or a call of `SetTick`.  Calls of `Stop` follow one
another: a new call starts when none is in progress.  The `run()` call of a
role may return at any moment with any value; the bodies of the roles are not
part of `etcd.go`. -/

/-- Where the goroutine executing `Run` stands. -/
inductive RunPc where
  /-- At `switch next` (line 125) with this requested mode; `Run` starts here
  with participant. -/
  | atSwitch (next : Int)
  /-- Line 127 is done, line 128 comes next. -/
  | builtParticipant
  /-- Line 128 is done; inside `s.p.run()` of line 129. -/
  | inParticipantRun
  /-- Line 131 is done, line 132 comes next. -/
  | builtStandby
  /-- Line 132 is done; inside `s.s.run()` of line 133. -/
  | inStandbyRun
  /-- Line 135 is done, line 136 comes next. -/
  | closed
  /-- Line 136 is done; at the send of line 137. -/
  | atSend
  /-- Line 138: `Run` has returned. -/
  | returned
  /-- Line 140: `Run` has panicked. -/
  | panicked
deriving DecidableEq, Repr

/-- Where the goroutine executing `Stop` stands. -/
inductive StopPc where
  /-- No call of `Stop` is in progress. -/
  | idle
  /-- Inside `Stop`, before the read of line 86. -/
  | atCheck
  /-- Line 86 read a mode other than stopped; before the read of line 89. -/
  | atCapture
  /-- Line 89 read `m`; before the write of line 90. -/
  | atSet (m : Int)
  /-- Line 90 is done; at `switch m` of line 91. -/
  | atStopRole (m : Int)
  /-- Lines 91-96 are done; at the receive of line 97. -/
  | atRecv
  /-- The call returned: at line 87 (`waited` false) or past line 97 (`waited` true). -/
  | returned (waited : Bool)
deriving DecidableEq, Repr

/-- A node with its two goroutines and the calls made so far, oldest first. -/
structure Node where
  server : Server
  run : RunPc
  stop : StopPc
  events : List Event
deriving DecidableEq, Repr

/-- The node when `Run` is entered on the server `s` and nobody has called `Stop`. -/
def Node.start (s : Server) : Node :=
  { server := s, run := .atSwitch participantMode, stop := .idle, events := [] }

/-- One atomic action of an interleaved execution. -/
inductive Action where
  /-- The goroutine of `Run` executes its next statement. -/
  | runStep
  /-- The `run()` call `Run` is blocked in returns `ret`. -/
  | roleReturns (ret : Int)
  /-- A goroutine enters `Stop`. -/
  | stopCall
  /-- The goroutine of `Stop` executes its next statement. -/
  | stopStep
  /-- The send of line 137 and the receive of line 97 complete together. -/
  | handOff
  /-- Some goroutine calls `SetTick(d)`. -/
  | setTick (d : Int)
deriving DecidableEq, Repr

/-- The next statement of `Run` (lines 125-140); `none` when `Run` is blocked
or has ended. -/
def stepRun (n : Node) : Option Node :=
  match n.run with
  | .atSwitch next =>
    if next = participantMode then
      let p := newParticipant n.server.id n.server.pubAddr n.server.raftPubAddr n.server.nodes
        n.server.client n.server.peerHub n.server.tickDuration
      some { n with server := { n.server with p := some p }, run := .builtParticipant
                    events := n.events ++ [.newParticipant p] }
    else if next = standbyMode then
      let sb := newStandby n.server.id n.server.pubAddr n.server.raftPubAddr n.server.nodes
        n.server.client n.server.peerHub
      some { n with server := { n.server with s := some sb }, run := .builtStandby
                    events := n.events ++ [.newStandby sb] }
    else if next = stopMode then
      some { n with run := .closed, events := n.events ++ [.closeConnections n.server.client] }
    else
      some { n with run := .panicked, events := n.events ++ [.panic "unsupport mode"] }
  | .builtParticipant =>
    some { n with server := { n.server with mode := participantMode }, run := .inParticipantRun
                  events := n.events ++ [.modeSet participantMode] }
  | .builtStandby =>
    some { n with server := { n.server with mode := standbyMode }, run := .inStandbyRun
                  events := n.events ++ [.modeSet standbyMode] }
  | .closed =>
    some { n with run := .atSend, events := n.events ++ [.peerHubStop n.server.peerHub] }
  | _ => none

/-- The return of the blocking `run()` call with the value `ret` (lines 129, 133). -/
def stepRoleReturns (ret : Int) (n : Node) : Option Node :=
  match n.run with
  | .inParticipantRun =>
    some { n with run := .atSwitch ret, events := n.events ++ [.participantRun n.server.p ret] }
  | .inStandbyRun =>
    some { n with run := .atSwitch ret, events := n.events ++ [.standbyRun n.server.s ret] }
  | _ => none

/-- A new call of `Stop`, possible when no call is in progress. -/
def stepStopCall (n : Node) : Option Node :=
  match n.stop with
  | .idle => some { n with stop := .atCheck }
  | .returned _ => some { n with stop := .atCheck }
  | _ => none

/-- The next statement of `Stop` (lines 86-96); `none` when `Stop` is blocked in
the receive or no call is in progress. -/
def stepStop (n : Node) : Option Node :=
  match n.stop with
  | .atCheck =>
    if n.server.mode = stopMode then some { n with stop := .returned false }
    else some { n with stop := .atCapture }
  | .atCapture => some { n with stop := .atSet n.server.mode }
  | .atSet m =>
    some { n with server := { n.server with mode := stopMode }, stop := .atStopRole m
                  events := n.events ++ [.modeSet stopMode] }
  | .atStopRole m =>
    if m = participantMode then
      some { n with stop := .atRecv, events := n.events ++ [.participantStop n.server.p] }
    else if m = standbyMode then
      some { n with stop := .atRecv, events := n.events ++ [.standbyStop n.server.s] }
    else
      some { n with stop := .atRecv }
  | _ => none

/-- The meeting of the send of `Run` and the receive of `Stop` on `stopc`. -/
def stepHandOff (n : Node) : Option Node :=
  match n.run, n.stop with
  | .atSend, .atRecv =>
    some { n with run := .returned, stop := .returned true
                  events := n.events ++ [.stopcSend, .stopcRecv] }
  | _, _ => none

/-- One action of an interleaved execution; `none` when the action is not enabled. -/
def step (a : Action) (n : Node) : Option Node :=
  match a with
  | .runStep => stepRun n
  | .roleReturns ret => stepRoleReturns ret n
  | .stopCall => stepStopCall n
  | .stopStep => stepStop n
  | .handOff => stepHandOff n
  | .setTick d => some { n with server := SetTick n.server d }

/-- An interleaved execution: the actions in order; `none` when one of them is not enabled. -/
def exec : List Action → Node → Option Node
  | [], n => some n
  | a :: rest, n => (step a n).bind (exec rest)

/-- Where the goroutine of `Run` stands when a sequential execution ends with
the given outcome. -/
def outcomePc : Outcome → RunPc
  | .returned => .returned
  | .panicked _ => .panicked
  | .inParticipantRun => .inParticipantRun
  | .inStandbyRun => .inStandbyRun
  | .blockedOnSend => .atSend
  | .blockedOnRecv => .atSend

/-- The interval the server stores after the `SetTick` calls among `acts`, when
it stored `d0` before them. -/
def lastTick (d0 : Int) : List Action → Int
  | [] => d0
  | .setTick d :: rest => lastTick d rest
  | _ :: rest => lastTick d0 rest

/-- Whether the call recorded by the event has an installed (non-nil) role as
its receiver; calls without a role receiver count as installed. -/
def Event.receiverInstalled : Event → Bool
  | .participantRun p _ => p.isSome
  | .standbyRun sb _ => sb.isSome
  | .participantStop p => p.isSome
  | .standbyStop sb => sb.isSome
  | _ => true

/-- Whether the handler a dispatch invokes belongs to an installed (non-nil) role. -/
def Dispatch.receiverInstalled : Dispatch → Bool
  | .participantServeHTTP p _ => p.isSome
  | .participantRaftServeHTTP p _ => p.isSome
  | .standbyServeHTTP sb _ => sb.isSome
  | .notFound _ => true

/-- The roles the node may dereference are installed: the participant whenever
the mode register holds participant or standby, the standby whenever it holds
standby; the same for the mode `Stop` has captured and for the role `Run` is
about to publish or is running; and every call made so far had an installed
receiver. -/
def Node.rolesInstalled (n : Node) : Prop :=
  ((n.server.mode = participantMode ∨ n.server.mode = standbyMode) → n.server.p.isSome = true) ∧
  (n.server.mode = standbyMode → n.server.s.isSome = true) ∧
  (n.server.p.isSome = true ∨ n.run = .atSwitch participantMode) ∧
  ((n.run = .builtStandby ∨ n.run = .inStandbyRun) → n.server.s.isSome = true) ∧
  (∀ m, (n.stop = .atSet m ∨ n.stop = .atStopRole m) →
    ((m = participantMode ∨ m = standbyMode) → n.server.p.isSome = true) ∧
    (m = standbyMode → n.server.s.isSome = true)) ∧
  (∀ e ∈ n.events, e.receiverInstalled = true)

/-! ## A concrete node used in the closed statements -/

/-- A configuration with seed peers p1 and p2 and a plain-http peer scheme. -/
def exampleConfig : Config :=
  { addr := "127.0.0.1:4001", peerAddr := "127.0.0.1:7001", peers := ["p1", "p2"]
    sanitizeErr := none, peerScheme := "http", peerClientConfig := none }

/-- The server `New(exampleConfig, 7)` returns, with a default tick of 100. -/
def exampleServer : Server :=
  { config := exampleConfig, id := 7, pubAddr := "127.0.0.1:4001", raftPubAddr := "127.0.0.1:7001"
    tickDuration := 100, mode := stopMode, nodes := [("p1", true), ("p2", true)]
    p := none, s := none
    client := ⟨⟨true, []⟩⟩, peerHub := ⟨["p1", "p2"], ⟨⟨true, []⟩⟩⟩, stopc := () }

/-- A client request. -/
def exampleRequest : Request := { method := "GET", path := "/v2/keys/foo" }

/-- The interleaving of the race: `Stop` is called while the first participant
runs and captures the mode participant (lines 86 and 89); the participant then
returns standby by itself and `Run` installs the standby and sets the mode
(lines 131-132); `Stop` goes on with lines 90 and 93. -/
def raceSchedule : List Action :=
  [.runStep, .runStep, .stopCall, .stopStep, .stopStep, .roleReturns standbyMode,
   .runStep, .runStep, .stopStep, .stopStep]

/-- An interleaving without a race: `Stop` is called while the first participant
runs, that participant returns stopped once `s.p.stop()` was called, `Run` shuts
down and hands the signal to `Stop`. -/
def calmSchedule : List Action :=
  [.runStep, .runStep, .stopCall, .stopStep, .stopStep, .stopStep, .stopStep,
   .roleReturns stopMode, .runStep, .runStep, .handOff]

/-- An interleaving with two `SetTick` calls: one before the first participant
is constructed, one while it runs; the participant then returns standby and
the standby returns participant. -/
def tickSchedule : List Action :=
  [.setTick 50, .runStep, .runStep, .setTick 70, .roleReturns standbyMode,
   .runStep, .runStep, .roleReturns participantMode]

/-- The node `tickSchedule` leads to from `exampleServer`: the first participant
was built with the interval 50, the server now stores 70, and `Run` is about to
construct the second participant. -/
def tickNode : Node :=
  { server :=
      { (SetTick exampleServer 70) with
        mode := standbyMode
        p := some (SetTick exampleServer 50).buildParticipant
        s := some (SetTick exampleServer 70).buildStandby }
    run := .atSwitch participantMode
    stop := .idle
    events :=
      [.newParticipant (SetTick exampleServer 50).buildParticipant, .modeSet participantMode,
       .participantRun (some (SetTick exampleServer 50).buildParticipant) standbyMode,
       .newStandby (SetTick exampleServer 70).buildStandby, .modeSet standbyMode,
       .standbyRun (some (SetTick exampleServer 70).buildStandby) participantMode] }

/-- The node after the first two statements of `Run` on `exampleServer`. -/
def participantNode : Node :=
  { server := exampleServer.asParticipant, run := .inParticipantRun, stop := .idle
    events := [.newParticipant exampleServer.buildParticipant, .modeSet participantMode] }

/-- An interleaving in which a first call of `Stop` completes after a race:
`Stop` runs lines 86, 89 and 90 while the first participant runs; the
participant returns standby by itself and `Run` installs the standby and
writes the mode (lines 131-132); `Stop` runs line 93 and waits in line 97; the
standby returns stopped by itself, `Run` shuts down and hands the signal over. -/
def firstStopSchedule : List Action :=
  [.runStep, .runStep, .stopCall, .stopStep, .stopStep, .stopStep,
   .roleReturns standbyMode, .runStep, .runStep, .stopStep,
   .roleReturns stopMode, .runStep, .runStep, .handOff]

/-- A second call of `Stop`, statement by statement up to the receive. -/
def secondStopSchedule : List Action :=
  [.stopCall, .stopStep, .stopStep, .stopStep, .stopStep]

/-! ## Basic facts -/

theorem New_exampleConfig : New 100 exampleConfig 7 = .ok exampleServer := by
  rfl

theorem New_mode (d : Int) (c : Config) (id : Int) (s : Server) (h : New d c id = .ok s) :
    s.mode = stopMode := by
  unfold New at h
  split at h
  · cases h
  · split at h
    · split at h
      · cases h
      · cases h; rfl
    · cases h; rfl

/-! ## Unfolding the loop -/

theorem runLoop_participant_nil (receiver : Bool) (s : Server) :
    runLoop receiver s participantMode [] =
      { steps := [⟨.newParticipant s.buildParticipant, { s with p := some s.buildParticipant }⟩,
                  ⟨.modeSet participantMode, s.asParticipant⟩]
        server := s.asParticipant, outcome := .inParticipantRun } := by
  rfl

theorem runLoop_participant_cons (receiver : Bool) (s : Server) (ret : Int) (rest : List Int) :
    runLoop receiver s participantMode (ret :: rest) =
      (runLoop receiver s.asParticipant ret rest).after
        [⟨.newParticipant s.buildParticipant, { s with p := some s.buildParticipant }⟩,
         ⟨.modeSet participantMode, s.asParticipant⟩,
         ⟨.participantRun (some s.buildParticipant) ret, s.asParticipant⟩] := by
  rfl

theorem runLoop_standby_nil (receiver : Bool) (s : Server) :
    runLoop receiver s standbyMode [] =
      { steps := [⟨.newStandby s.buildStandby, { s with s := some s.buildStandby }⟩,
                  ⟨.modeSet standbyMode, s.asStandby⟩]
        server := s.asStandby, outcome := .inStandbyRun } := by
  rfl

theorem runLoop_standby_cons (receiver : Bool) (s : Server) (ret : Int) (rest : List Int) :
    runLoop receiver s standbyMode (ret :: rest) =
      (runLoop receiver s.asStandby ret rest).after
        [⟨.newStandby s.buildStandby, { s with s := some s.buildStandby }⟩,
         ⟨.modeSet standbyMode, s.asStandby⟩,
         ⟨.standbyRun (some s.buildStandby) ret, s.asStandby⟩] := by
  rfl

theorem runLoop_stop (receiver : Bool) (s : Server) (rets : List Int) :
    runLoop receiver s stopMode rets =
      if receiver then
        { steps := [⟨.closeConnections s.client, s⟩, ⟨.peerHubStop s.peerHub, s⟩, ⟨.stopcSend, s⟩]
          server := s, outcome := .returned }
      else
        { steps := [⟨.closeConnections s.client, s⟩, ⟨.peerHubStop s.peerHub, s⟩]
          server := s, outcome := .blockedOnSend } := by
  cases rets <;> rfl

theorem runLoop_other (receiver : Bool) (s : Server) (next : Int) (rets : List Int)
    (h1 : next ≠ participantMode) (h2 : next ≠ standbyMode) (h3 : next ≠ stopMode) :
    runLoop receiver s next rets =
      { steps := [⟨.panic "unsupport mode", s⟩], server := s
        outcome := .panicked "unsupport mode" } := by
  cases rets <;> simp [runLoop, h1, h2, h3]

/-! ## The loop when the roles return participant or standby until one returns stopped -/

theorem events_after (pre : List Step) (r : RunResult) :
    (r.after pre).events = pre.map Step.ev ++ r.events := by
  simp [RunResult.after, RunResult.events]

theorem expectedEvents_asParticipant (s : Server) (k : Int) (rets : List Int) :
    expectedEvents s.asParticipant k rets = expectedEvents s k rets := by
  induction rets generalizing k with
  | nil => rfl
  | cons ret rest ih => simp only [expectedEvents, ih]; rfl

theorem expectedEvents_asStandby (s : Server) (k : Int) (rets : List Int) :
    expectedEvents s.asStandby k rets = expectedEvents s k rets := by
  induction rets generalizing k with
  | nil => rfl
  | cons ret rest ih => simp only [expectedEvents, ih]; rfl

theorem runLoop_events (receiver : Bool) (s : Server) (k : Int) (pre extra : List Int)
    (hk : k = participantMode ∨ k = standbyMode)
    (hpre : ∀ r ∈ pre, r = participantMode ∨ r = standbyMode) :
    (runLoop receiver s k (pre ++ stopMode :: extra)).events
      = expectedEvents s k (pre ++ [stopMode]) ++ shutdownEvents receiver s := by
  induction pre generalizing s k with
  | nil =>
    rcases hk with rfl | rfl
    · rw [List.nil_append, runLoop_participant_cons, events_after, runLoop_stop]
      cases receiver <;> rfl
    · rw [List.nil_append, runLoop_standby_cons, events_after, runLoop_stop]
      cases receiver <;> rfl
  | cons r pre ih =>
    have hr : r = participantMode ∨ r = standbyMode := hpre r (List.mem_cons_self _ _)
    have hpre2 : ∀ x ∈ pre, x = participantMode ∨ x = standbyMode :=
      fun x hx => hpre x (List.mem_cons_of_mem _ hx)
    rcases hk with rfl | rfl
    · rw [List.cons_append, runLoop_participant_cons, events_after, ih _ _ hr hpre2,
        expectedEvents_asParticipant]
      simp [expectedEvents, roleEvents, shutdownEvents, Server.asParticipant]
    · rw [List.cons_append, runLoop_standby_cons, events_after, ih _ _ hr hpre2,
        expectedEvents_asStandby]
      simp [expectedEvents, roleEvents, shutdownEvents, Server.asStandby, standbyMode,
        participantMode]

theorem modeWrites_append (a b : List Event) :
    modeWrites (a ++ b) = modeWrites a ++ modeWrites b := by
  induction a with
  | nil => rfl
  | cons e es ih => cases e <;> simp [modeWrites, ih]

theorem modeWrites_shutdownEvents (receiver : Bool) (s : Server) :
    modeWrites (shutdownEvents receiver s) = [] := by
  cases receiver <;> rfl

theorem modeWrites_expectedEvents (s : Server) (k : Int) (pre : List Int)
    (hk : k = participantMode ∨ k = standbyMode)
    (hpre : ∀ r ∈ pre, r = participantMode ∨ r = standbyMode) :
    modeWrites (expectedEvents s k (pre ++ [stopMode])) = k :: pre := by
  induction pre generalizing k with
  | nil =>
    rcases hk with rfl | rfl <;>
      simp [expectedEvents, roleEvents, modeWrites, standbyMode, participantMode]
  | cons r pre ih =>
    have hr : r = participantMode ∨ r = standbyMode := hpre r (List.mem_cons_self _ _)
    have hpre2 : ∀ x ∈ pre, x = participantMode ∨ x = standbyMode :=
      fun x hx => hpre x (List.mem_cons_of_mem _ hx)
    rw [List.cons_append, expectedEvents, modeWrites_append, ih r hr hpre2]
    rcases hk with rfl | rfl <;> simp [roleEvents, modeWrites, standbyMode, participantMode]

theorem countP_construction_expectedEvents (s : Server) (k : Int) (rets : List Int) :
    (expectedEvents s k rets).countP Event.isConstruction = rets.length := by
  induction rets generalizing k with
  | nil => rfl
  | cons r rest ih =>
    rw [expectedEvents, List.countP_append, ih]
    by_cases hk : k = participantMode <;>
      simp [roleEvents, hk, List.countP_cons, Event.isConstruction] <;> omega

theorem countP_construction_shutdownEvents (receiver : Bool) (s : Server) :
    (shutdownEvents receiver s).countP Event.isConstruction = 0 := by
  cases receiver <;> rfl

theorem runLoop_final (receiver : Bool) (s : Server) (k : Int) (pre extra : List Int)
    (hk : k = participantMode ∨ k = standbyMode)
    (hpre : ∀ r ∈ pre, r = participantMode ∨ r = standbyMode) :
    (runLoop receiver s k (pre ++ stopMode :: extra)).server.mode
        = (k :: pre).getLast (List.cons_ne_nil _ _) ∧
    (runLoop receiver s k (pre ++ stopMode :: extra)).outcome
        = (if receiver then Outcome.returned else Outcome.blockedOnSend) ∧
    (∀ st ∈ (runLoop receiver s k (pre ++ stopMode :: extra)).steps, st.ev.isShutdown = true →
        st.post = (runLoop receiver s k (pre ++ stopMode :: extra)).server) := by
  induction pre generalizing s k with
  | nil =>
    rcases hk with rfl | rfl
    · rw [List.nil_append, runLoop_participant_cons, runLoop_stop]
      cases receiver <;>
        simp [RunResult.after, Server.asParticipant, Event.isShutdown]
    · rw [List.nil_append, runLoop_standby_cons, runLoop_stop]
      cases receiver <;>
        simp [RunResult.after, Server.asStandby, Event.isShutdown]
  | cons r pre ih =>
    have hr : r = participantMode ∨ r = standbyMode := hpre r (List.mem_cons_self _ _)
    have hpre2 : ∀ x ∈ pre, x = participantMode ∨ x = standbyMode :=
      fun x hx => hpre x (List.mem_cons_of_mem _ hx)
    rcases hk with rfl | rfl
    · obtain ⟨h1, h2, h3⟩ := ih s.asParticipant r hr hpre2
      rw [List.cons_append, runLoop_participant_cons]
      refine ⟨?_, ?_, ?_⟩
      · simpa [RunResult.after, List.getLast_cons] using h1
      · simpa [RunResult.after] using h2
      · intro st hst hsd
        simp only [RunResult.after, List.mem_append, List.mem_cons, List.mem_singleton,
          List.not_mem_nil, or_false] at hst
        rcases hst with (rfl | rfl | rfl) | hst
        · simp [Event.isShutdown] at hsd
        · simp [Event.isShutdown] at hsd
        · simp [Event.isShutdown] at hsd
        · exact h3 st hst hsd
    · obtain ⟨h1, h2, h3⟩ := ih s.asStandby r hr hpre2
      rw [List.cons_append, runLoop_standby_cons]
      refine ⟨?_, ?_, ?_⟩
      · simpa [RunResult.after, List.getLast_cons] using h1
      · simpa [RunResult.after] using h2
      · intro st hst hsd
        simp only [RunResult.after, List.mem_append, List.mem_cons, List.mem_singleton,
          List.not_mem_nil, or_false] at hst
        rcases hst with (rfl | rfl | rfl) | hst
        · simp [Event.isShutdown] at hsd
        · simp [Event.isShutdown] at hsd
        · simp [Event.isShutdown] at hsd
        · exact h3 st hst hsd

theorem getLast_mem_modes (k : Int) (pre : List Int)
    (hk : k = participantMode ∨ k = standbyMode)
    (hpre : ∀ r ∈ pre, r = participantMode ∨ r = standbyMode) :
    (k :: pre).getLast (List.cons_ne_nil _ _) = participantMode ∨
    (k :: pre).getLast (List.cons_ne_nil _ _) = standbyMode := by
  have hmem := List.getLast_mem (List.cons_ne_nil k pre)
  rcases List.mem_cons.mp hmem with h | h
  · rw [h]; exact hk
  · exact hpre _ h

/-! ## The shape of every execution of the loop -/

theorem isShutdown_shutdownEvents (receiver : Bool) (s : Server) :
    ∀ e ∈ shutdownEvents receiver s, e.isConstruction = false := by
  cases receiver <;> simp [shutdownEvents, Event.isConstruction]

theorem runLoop_shape (receiver : Bool) (s : Server) (next : Int) (rets : List Int) :
    ∃ pre tail, (runLoop receiver s next rets).events = pre ++ tail ∧
      (∀ e ∈ pre, e.isShutdown = false) ∧
      (tail = [] ∨
        (((pre = [] ∧ next = stopMode) ∨
            ∃ e, pre.getLast? = some e ∧ e.isRunReturn stopMode = true) ∧
          tail = shutdownEvents receiver s)) ∧
      ((runLoop receiver s next rets).outcome = .returned ↔
        tail = [.closeConnections s.client, .peerHubStop s.peerHub, .stopcSend]) := by
  induction rets generalizing s next with
  | nil =>
    by_cases h1 : next = participantMode
    · subst h1
      refine ⟨[.newParticipant s.buildParticipant, .modeSet participantMode], [], ?_, ?_,
        Or.inl rfl, ?_⟩
      · rw [runLoop_participant_nil]; rfl
      · simp [Event.isShutdown]
      · rw [runLoop_participant_nil]; simp
    by_cases h2 : next = standbyMode
    · subst h2
      refine ⟨[.newStandby s.buildStandby, .modeSet standbyMode], [], ?_, ?_, Or.inl rfl, ?_⟩
      · rw [runLoop_standby_nil]; rfl
      · simp [Event.isShutdown]
      · rw [runLoop_standby_nil]; simp
    by_cases h3 : next = stopMode
    · subst h3
      refine ⟨[], shutdownEvents receiver s, ?_, by simp, Or.inr ⟨Or.inl ⟨rfl, rfl⟩, rfl⟩, ?_⟩
      · rw [runLoop_stop]; cases receiver <;> rfl
      · rw [runLoop_stop]; cases receiver <;> simp [shutdownEvents]
    · refine ⟨[.panic "unsupport mode"], [], ?_, ?_, Or.inl rfl, ?_⟩
      · rw [runLoop_other _ _ _ _ h1 h2 h3]; rfl
      · simp [Event.isShutdown]
      · rw [runLoop_other _ _ _ _ h1 h2 h3]; simp
  | cons ret rest ih =>
    by_cases h1 : next = participantMode
    · subst h1
      obtain ⟨pre, tail, hev, hpre, hshape, hout⟩ := ih s.asParticipant ret
      refine ⟨[.newParticipant s.buildParticipant, .modeSet participantMode,
          .participantRun (some s.buildParticipant) ret] ++ pre, tail, ?_, ?_, ?_, ?_⟩
      · rw [runLoop_participant_cons, events_after, hev]; simp
      · intro e he
        rcases List.mem_append.mp he with he | he
        · simp only [List.mem_cons, List.mem_singleton, List.not_mem_nil, or_false] at he
          rcases he with rfl | rfl | rfl <;> rfl
        · exact hpre e he
      · rcases hshape with h | ⟨h, htail⟩
        · exact Or.inl h
        · refine Or.inr ⟨Or.inr ?_, htail⟩
          rcases h with ⟨rfl, rfl⟩ | ⟨e, he, hr⟩
          · exact ⟨.participantRun (some s.buildParticipant) stopMode, by simp,
              by simp [Event.isRunReturn]⟩
          · exact ⟨e, by rw [List.getLast?_append, he]; rfl, hr⟩
      · rw [runLoop_participant_cons]; exact hout
    by_cases h2 : next = standbyMode
    · subst h2
      obtain ⟨pre, tail, hev, hpre, hshape, hout⟩ := ih s.asStandby ret
      refine ⟨[.newStandby s.buildStandby, .modeSet standbyMode,
          .standbyRun (some s.buildStandby) ret] ++ pre, tail, ?_, ?_, ?_, ?_⟩
      · rw [runLoop_standby_cons, events_after, hev]; simp
      · intro e he
        rcases List.mem_append.mp he with he | he
        · simp only [List.mem_cons, List.mem_singleton, List.not_mem_nil, or_false] at he
          rcases he with rfl | rfl | rfl <;> rfl
        · exact hpre e he
      · rcases hshape with h | ⟨h, htail⟩
        · exact Or.inl h
        · refine Or.inr ⟨Or.inr ?_, htail⟩
          rcases h with ⟨rfl, rfl⟩ | ⟨e, he, hr⟩
          · exact ⟨.standbyRun (some s.buildStandby) stopMode, by simp,
              by simp [Event.isRunReturn]⟩
          · exact ⟨e, by rw [List.getLast?_append, he]; rfl, hr⟩
      · rw [runLoop_standby_cons]; exact hout
    by_cases h3 : next = stopMode
    · subst h3
      refine ⟨[], shutdownEvents receiver s, ?_, by simp, Or.inr ⟨Or.inl ⟨rfl, rfl⟩, rfl⟩, ?_⟩
      · rw [runLoop_stop]; cases receiver <;> rfl
      · rw [runLoop_stop]; cases receiver <;> simp [shutdownEvents]
    · refine ⟨[.panic "unsupport mode"], [], ?_, ?_, Or.inl rfl, ?_⟩
      · rw [runLoop_other _ _ _ _ h1 h2 h3]; rfl
      · simp [Event.isShutdown]
      · rw [runLoop_other _ _ _ _ h1 h2 h3]; simp

/-! ## The current role along the loop -/

theorem matches_asParticipant (s : Server) :
    RoleMatchesMode (some (.participant s.buildParticipant)) s.asParticipant :=
  ⟨.participant s.buildParticipant, rfl, rfl, by simp [Server.dispatchedRole, Server.asParticipant]⟩

theorem matches_asStandby (s : Server) :
    RoleMatchesMode (some (.standby s.buildStandby)) s.asStandby :=
  ⟨.standby s.buildStandby, rfl, rfl,
    by simp [Server.dispatchedRole, Server.asStandby, standbyMode, participantMode]⟩

theorem runLoop_holdsAlong (receiver : Bool) (s : Server) (next : Int) (rets : List Int)
    (cur : Option Role)
    (h0 : next ≠ participantMode → next ≠ standbyMode → RoleMatchesMode cur s) :
    holdsAlong cur (runLoop receiver s next rets).steps := by
  induction rets generalizing s next cur with
  | nil =>
    by_cases h1 : next = participantMode
    · subst h1
      rw [runLoop_participant_nil]
      simp [holdsAlong, stepRole, Event.isConstruction, matches_asParticipant]
    by_cases h2 : next = standbyMode
    · subst h2
      rw [runLoop_standby_nil]
      simp [holdsAlong, stepRole, Event.isConstruction, matches_asStandby]
    by_cases h3 : next = stopMode
    · subst h3
      rw [runLoop_stop]
      cases receiver <;> simp [holdsAlong, stepRole, h0 h1 h2]
    · rw [runLoop_other _ _ _ _ h1 h2 h3]
      simp [holdsAlong, stepRole, h0 h1 h2]
  | cons ret rest ih =>
    by_cases h1 : next = participantMode
    · subst h1
      rw [runLoop_participant_cons]
      simp only [RunResult.after, List.cons_append, List.nil_append, holdsAlong, stepRole]
      exact ⟨by simp [Event.isConstruction], fun _ => matches_asParticipant s,
        fun _ => matches_asParticipant s,
        ih s.asParticipant ret _ (fun _ _ => matches_asParticipant s)⟩
    by_cases h2 : next = standbyMode
    · subst h2
      rw [runLoop_standby_cons]
      simp only [RunResult.after, List.cons_append, List.nil_append, holdsAlong, stepRole]
      exact ⟨by simp [Event.isConstruction], fun _ => matches_asStandby s,
        fun _ => matches_asStandby s,
        ih s.asStandby ret _ (fun _ _ => matches_asStandby s)⟩
    by_cases h3 : next = stopMode
    · subst h3
      rw [runLoop_stop]
      cases receiver <;> simp [holdsAlong, stepRole, h0 h1 h2]
    · rw [runLoop_other _ _ _ _ h1 h2 h3]
      simp [holdsAlong, stepRole, h0 h1 h2]

theorem holdsAlong_split (cur : Option Role) (steps pre post : List Step) (st : Step)
    (h : holdsAlong cur steps) (hs : steps = pre ++ st :: post)
    (hc : st.ev.isConstruction = false) :
    RoleMatchesMode (currentRoleFrom cur ((pre ++ [st]).map Step.ev)) st.post := by
  subst hs
  induction pre generalizing cur with
  | nil => exact h.1 hc
  | cons a pre ih => exact ih (stepRole cur a.ev) h.2

/-! ## HTTP dispatch -/

/-- C1 (evaluated on the code): on the node that `Run` has switched to standby
(the first participant returned standby and the standby is running), the mode
is standby and a standby object is installed, yet `ServeHTTP` hands the request
to the participant object `s.p`, whose `run()` has already returned, and not to
the forwarding handler of the standby `s.s`. -/
theorem ServeHTTP_standby_goes_to_participant :
    (Run false exampleServer [standbyMode]).outcome = .inStandbyRun ∧
    (Run false exampleServer [standbyMode]).server.mode = standbyMode ∧
    (Run false exampleServer [standbyMode]).server.s
      = some (newStandby 7 "127.0.0.1:4001" "127.0.0.1:7001" [("p1", true), ("p2", true)]
          ⟨⟨true, []⟩⟩ ⟨["p1", "p2"], ⟨⟨true, []⟩⟩⟩) ∧
    ServeHTTP (Run false exampleServer [standbyMode]).server exampleRequest
      = .participantServeHTTP (Run false exampleServer [standbyMode]).server.p exampleRequest ∧
    ServeHTTP (Run false exampleServer [standbyMode]).server exampleRequest
      ≠ .standbyServeHTTP (Run false exampleServer [standbyMode]).server.s exampleRequest := by
  decide

/-- C2: for every mode value `m`, `ServeRaftHTTP` hands the request to the
consensus-traffic handler of the participant exactly when `m` is participant;
for every other `m` it answers not-found and invokes no handler of a role. -/
theorem ServeRaftHTTP_participant_only (s : Server) (m : Int) (r : Request) :
    (ServeRaftHTTP { s with mode := m } r = .participantRaftServeHTTP s.p r ↔ m = participantMode) ∧
    (ServeRaftHTTP { s with mode := m } r = .notFound r ↔ m ≠ participantMode) ∧
    ((ServeRaftHTTP { s with mode := m } r).invokesRole = false ↔ m ≠ participantMode) ∧
    ServeRaftHTTP { s with mode := standbyMode } r = .notFound r ∧
    ServeRaftHTTP { s with mode := stopMode } r = .notFound r := by
  refine ⟨?_, ?_, ?_, ?_, ?_⟩
  · by_cases h : m = participantMode <;> simp [ServeRaftHTTP, h]
  · by_cases h : m = participantMode <;> simp [ServeRaftHTTP, h]
  · by_cases h : m = participantMode <;> simp [ServeRaftHTTP, h, Dispatch.invokesRole]
  · simp [ServeRaftHTTP, standbyMode, participantMode]
  · simp [ServeRaftHTTP, stopMode, participantMode]

/-- C3: for every mode value `m`, `ServeHTTP` answers not-found, invoking no
handler of a role, exactly when `m` is neither participant nor standby, in
particular when `m` is stopped; when `m` is participant the request goes to the
client-facing handler of the participant. -/
theorem ServeHTTP_notFound_iff (s : Server) (m : Int) (r : Request) :
    (ServeHTTP { s with mode := m } r = .notFound r ↔ (m ≠ participantMode ∧ m ≠ standbyMode)) ∧
    ((ServeHTTP { s with mode := m } r).invokesRole = false
      ↔ (m ≠ participantMode ∧ m ≠ standbyMode)) ∧
    ServeHTTP { s with mode := stopMode } r = .notFound r ∧
    ServeHTTP { s with mode := participantMode } r = .participantServeHTTP s.p r := by
  refine ⟨?_, ?_, ?_, ?_⟩
  · by_cases h : m = participantMode ∨ m = standbyMode
    · simp [ServeHTTP, h]; tauto
    · simp [ServeHTTP, h]; tauto
  · by_cases h : m = participantMode ∨ m = standbyMode
    · simp [ServeHTTP, h, Dispatch.invokesRole]; tauto
    · simp [ServeHTTP, h, Dispatch.invokesRole]; tauto
  · simp [ServeHTTP, stopMode, participantMode, standbyMode]
  · simp [ServeHTTP]

/-! ## The control loop -/

/-- C4 (as stated, refuted): when the roles return standby, participant, stopped
and no `Stop` call is involved, the values `Run` writes to the mode register
are participant, standby, participant and no fourth value: `Run` reaches the
shutdown calls and waits in the send with the register still holding
participant, not stopped; with a receiver present it returns with the register
holding participant as well. -/
theorem Run_does_not_write_stopMode :
    modeWrites (Run false exampleServer [standbyMode, participantMode, stopMode]).events
      = [participantMode, standbyMode, participantMode] ∧
    modeWrites (Run false exampleServer [standbyMode, participantMode, stopMode]).events
      ≠ [participantMode, standbyMode, participantMode, stopMode] ∧
    (Run false exampleServer [standbyMode, participantMode, stopMode]).outcome = .blockedOnSend ∧
    (Run false exampleServer [standbyMode, participantMode, stopMode]).server.mode
      = participantMode ∧
    (Run false exampleServer [standbyMode, participantMode, stopMode]).server.mode ≠ stopMode ∧
    (Run true exampleServer [standbyMode, participantMode, stopMode]).outcome = .returned ∧
    (Run true exampleServer [standbyMode, participantMode, stopMode]).server.mode ≠ stopMode := by
  have hf : Run false exampleServer [standbyMode, participantMode, stopMode]
      = (((runLoop false exampleServer.asParticipant.asStandby.asParticipant stopMode []).after
          [⟨.newParticipant exampleServer.asParticipant.asStandby.buildParticipant,
              { exampleServer.asParticipant.asStandby with
                p := some exampleServer.asParticipant.asStandby.buildParticipant }⟩,
           ⟨.modeSet participantMode, exampleServer.asParticipant.asStandby.asParticipant⟩,
           ⟨.participantRun (some exampleServer.asParticipant.asStandby.buildParticipant) stopMode,
              exampleServer.asParticipant.asStandby.asParticipant⟩]).after
          [⟨.newStandby exampleServer.asParticipant.buildStandby,
              { exampleServer.asParticipant with s := some exampleServer.asParticipant.buildStandby }⟩,
           ⟨.modeSet standbyMode, exampleServer.asParticipant.asStandby⟩,
           ⟨.standbyRun (some exampleServer.asParticipant.buildStandby) participantMode,
              exampleServer.asParticipant.asStandby⟩]).after
          [⟨.newParticipant exampleServer.buildParticipant,
              { exampleServer with p := some exampleServer.buildParticipant }⟩,
           ⟨.modeSet participantMode, exampleServer.asParticipant⟩,
           ⟨.participantRun (some exampleServer.buildParticipant) standbyMode,
              exampleServer.asParticipant⟩] := by
    rw [Run, runLoop_participant_cons, runLoop_standby_cons, runLoop_participant_cons]
  have ht : Run true exampleServer [standbyMode, participantMode, stopMode]
      = (((runLoop true exampleServer.asParticipant.asStandby.asParticipant stopMode []).after
          [⟨.newParticipant exampleServer.asParticipant.asStandby.buildParticipant,
              { exampleServer.asParticipant.asStandby with
                p := some exampleServer.asParticipant.asStandby.buildParticipant }⟩,
           ⟨.modeSet participantMode, exampleServer.asParticipant.asStandby.asParticipant⟩,
           ⟨.participantRun (some exampleServer.asParticipant.asStandby.buildParticipant) stopMode,
              exampleServer.asParticipant.asStandby.asParticipant⟩]).after
          [⟨.newStandby exampleServer.asParticipant.buildStandby,
              { exampleServer.asParticipant with s := some exampleServer.asParticipant.buildStandby }⟩,
           ⟨.modeSet standbyMode, exampleServer.asParticipant.asStandby⟩,
           ⟨.standbyRun (some exampleServer.asParticipant.buildStandby) participantMode,
              exampleServer.asParticipant.asStandby⟩]).after
          [⟨.newParticipant exampleServer.buildParticipant,
              { exampleServer with p := some exampleServer.buildParticipant }⟩,
           ⟨.modeSet participantMode, exampleServer.asParticipant⟩,
           ⟨.participantRun (some exampleServer.buildParticipant) standbyMode,
              exampleServer.asParticipant⟩] := by
    rw [Run, runLoop_participant_cons, runLoop_standby_cons, runLoop_participant_cons]
  rw [hf, ht, runLoop_stop, runLoop_stop]
  simp [RunResult.after, RunResult.events, modeWrites, Server.asParticipant, participantMode,
    standbyMode, stopMode]

/-- C4 (amended): for every sequence of `run()` results made of participant and
standby values followed by the first stopped, the values `Run` writes to the
mode register are participant followed by the earlier results, stopped is not
among them, and at each shutdown call and at the end the register holds the
kind of the last role, which is not stopped. -/
theorem Run_modeWrites (receiver : Bool) (s : Server) (pre extra : List Int)
    (hpre : ∀ r ∈ pre, r = participantMode ∨ r = standbyMode) :
    modeWrites (Run receiver s (pre ++ stopMode :: extra)).events = participantMode :: pre ∧
    stopMode ∉ modeWrites (Run receiver s (pre ++ stopMode :: extra)).events ∧
    (Run receiver s (pre ++ stopMode :: extra)).server.mode
      = (participantMode :: pre).getLast (List.cons_ne_nil _ _) ∧
    (Run receiver s (pre ++ stopMode :: extra)).server.mode ≠ stopMode ∧
    (∀ st ∈ (Run receiver s (pre ++ stopMode :: extra)).steps, st.ev.isShutdown = true →
      st.post.mode = (participantMode :: pre).getLast (List.cons_ne_nil _ _)) ∧
    (Run receiver s (pre ++ stopMode :: extra)).outcome
      = (if receiver then Outcome.returned else Outcome.blockedOnSend) := by
  have hw : modeWrites (Run receiver s (pre ++ stopMode :: extra)).events = participantMode :: pre := by
    rw [Run, runLoop_events receiver s participantMode pre extra (Or.inl rfl) hpre,
      modeWrites_append, modeWrites_shutdownEvents, List.append_nil,
      modeWrites_expectedEvents s participantMode pre (Or.inl rfl) hpre]
  obtain ⟨hm, ho, hs⟩ := runLoop_final receiver s participantMode pre extra (Or.inl rfl) hpre
  have hlast := getLast_mem_modes participantMode pre (Or.inl rfl) hpre
  have hne : (participantMode :: pre).getLast (List.cons_ne_nil _ _) ≠ stopMode := by
    rcases hlast with h | h <;> rw [h] <;> decide
  refine ⟨hw, ?_, hm, ?_, ?_, ho⟩
  · rw [hw]
    intro hmem
    rcases List.mem_cons.mp hmem with h | h
    · exact absurd h (by decide)
    · rcases hpre _ h with h2 | h2 <;> exact absurd h2 (by decide)
  · rw [Run, hm]; exact hne
  · intro st hst hsd
    rw [← hm]
    exact congrArg Server.mode (hs st hst hsd)

theorem Run_modeWrites_witness :
    (∀ r ∈ [standbyMode, participantMode], r = participantMode ∨ r = standbyMode) ∧
    modeWrites (Run true exampleServer ([standbyMode, participantMode] ++ stopMode :: [])).events
      = participantMode :: [standbyMode, participantMode] :=
  ⟨by decide, (Run_modeWrites true exampleServer [standbyMode, participantMode] []
    (by decide)).1⟩

/-- C5: the first requested mode is participant and each later one is the
value the previous role returned.  For results `r1..rn` made of participant and
standby values followed by the first stopped, the calls of `Run` are, for each
role of kind participant, `r1`, ..., `r(n-1)` in turn, its construction, the
write of its kind to the mode register and its `run()` returning the next
result, followed by the shutdown calls; exactly `n` roles are constructed. -/
theorem Run_roles_follow_returns (receiver : Bool) (s : Server) (pre extra : List Int)
    (hpre : ∀ r ∈ pre, r = participantMode ∨ r = standbyMode) :
    (Run receiver s (pre ++ stopMode :: extra)).events
      = expectedEvents s participantMode (pre ++ [stopMode]) ++ shutdownEvents receiver s ∧
    (Run receiver s (pre ++ stopMode :: extra)).events.countP Event.isConstruction
      = pre.length + 1 := by
  have hev := runLoop_events receiver s participantMode pre extra (Or.inl rfl) hpre
  refine ⟨hev, ?_⟩
  rw [Run, hev, List.countP_append, countP_construction_expectedEvents,
    countP_construction_shutdownEvents]
  simp

theorem Run_roles_follow_returns_witness :
    (∀ r ∈ [standbyMode, participantMode], r = participantMode ∨ r = standbyMode) ∧
    (Run true exampleServer ([standbyMode, participantMode] ++ stopMode :: [])).events
      = [.newParticipant exampleServer.buildParticipant, .modeSet participantMode,
         .participantRun (some exampleServer.buildParticipant) standbyMode,
         .newStandby exampleServer.buildStandby, .modeSet standbyMode,
         .standbyRun (some exampleServer.buildStandby) participantMode,
         .newParticipant exampleServer.buildParticipant, .modeSet participantMode,
         .participantRun (some exampleServer.buildParticipant) stopMode,
         .closeConnections exampleServer.client, .peerHubStop exampleServer.peerHub,
         .stopcSend] :=
  ⟨by decide, (Run_roles_follow_returns true exampleServer [standbyMode, participantMode] []
    (by decide)).1⟩

theorem runLoop_stop_reached (receiver : Bool) (s : Server) (next : Int) (rets : List Int)
    (h : next = stopMode ∨
      ∃ e ∈ (runLoop receiver s next rets).events, e.isRunReturn stopMode = true) :
    Event.closeConnections s.client ∈ (runLoop receiver s next rets).events ∧
    (runLoop receiver s next rets).outcome
      = (if receiver then Outcome.returned else Outcome.blockedOnSend) := by
  induction rets generalizing s next with
  | nil =>
    by_cases h1 : next = participantMode
    · subst h1
      rcases h with h | ⟨e, he, hr⟩
      · exact absurd h (by decide)
      · rw [runLoop_participant_nil] at he
        simp [RunResult.events] at he
        rcases he with rfl | rfl <;> simp [Event.isRunReturn] at hr
    by_cases h2 : next = standbyMode
    · subst h2
      rcases h with h | ⟨e, he, hr⟩
      · exact absurd h (by decide)
      · rw [runLoop_standby_nil] at he
        simp [RunResult.events] at he
        rcases he with rfl | rfl <;> simp [Event.isRunReturn] at hr
    by_cases h3 : next = stopMode
    · subst h3
      rw [runLoop_stop]
      cases receiver <;> simp [RunResult.events]
    · rcases h with h | ⟨e, he, hr⟩
      · exact absurd h h3
      · rw [runLoop_other _ _ _ _ h1 h2 h3] at he
        simp [RunResult.events] at he
        subst he
        simp [Event.isRunReturn] at hr
  | cons ret rest ih =>
    by_cases h1 : next = participantMode
    · subst h1
      have hrec : ret = stopMode ∨
          ∃ e ∈ (runLoop receiver s.asParticipant ret rest).events,
            e.isRunReturn stopMode = true := by
        rcases h with h | ⟨e, he, hr⟩
        · exact absurd h (by decide)
        · rw [runLoop_participant_cons, events_after] at he
          rcases List.mem_append.mp he with he | he
          · simp at he
            rcases he with rfl | rfl | rfl
            · simp [Event.isRunReturn] at hr
            · simp [Event.isRunReturn] at hr
            · left; simpa [Event.isRunReturn] using hr
          · exact Or.inr ⟨e, he, hr⟩
      obtain ⟨i1, i2⟩ := ih s.asParticipant ret hrec
      rw [runLoop_participant_cons, events_after]
      exact ⟨List.mem_append_right _ i1, i2⟩
    by_cases h2 : next = standbyMode
    · subst h2
      have hrec : ret = stopMode ∨
          ∃ e ∈ (runLoop receiver s.asStandby ret rest).events,
            e.isRunReturn stopMode = true := by
        rcases h with h | ⟨e, he, hr⟩
        · exact absurd h (by decide)
        · rw [runLoop_standby_cons, events_after] at he
          rcases List.mem_append.mp he with he | he
          · simp at he
            rcases he with rfl | rfl | rfl
            · simp [Event.isRunReturn] at hr
            · simp [Event.isRunReturn] at hr
            · left; simpa [Event.isRunReturn] using hr
          · exact Or.inr ⟨e, he, hr⟩
      obtain ⟨i1, i2⟩ := ih s.asStandby ret hrec
      rw [runLoop_standby_cons, events_after]
      exact ⟨List.mem_append_right _ i1, i2⟩
    by_cases h3 : next = stopMode
    · subst h3
      rw [runLoop_stop]
      cases receiver <;> simp [RunResult.events]
    · rcases h with h | ⟨e, he, hr⟩
      · exact absurd h h3
      · rw [runLoop_other _ _ _ _ h1 h2 h3] at he
        simp [RunResult.events] at he
        subst he
        simp [Event.isRunReturn] at hr

theorem filter_isShutdown_shutdownEvents (receiver : Bool) (s : Server) :
    (shutdownEvents receiver s).filter Event.isShutdown = shutdownEvents receiver s := by
  cases receiver <;> simp [shutdownEvents, Event.isShutdown]

/-- C6: in every execution of `Run` the calls split into a part without any
shutdown call and a rest that is either empty or the shutdown calls in the
order `CloseConnections`, `peerHub.stop`, send on `stopc`; the rest is non-empty
only right after a role's `run()` returned stopped, so no role is constructed
after it, and `Run` returns exactly when the rest is all three calls ending
with the one send.  Whenever a role's `run()` returns stopped the shutdown
calls do happen: the rest is `CloseConnections`, `peerHub.stop` and, with a
receiver on `stopc`, the send, these are all the shutdown calls of the
execution, each made once, and `Run` returns (without a receiver it waits in
the send).  When no `run()` returns stopped there is no shutdown call at all
and `Run` does not return. -/
theorem Run_shutdown_sequence (receiver : Bool) (s : Server) (rets : List Int) :
    ∃ pre tail, (Run receiver s rets).events = pre ++ tail ∧
      (∀ e ∈ pre, e.isShutdown = false) ∧
      (tail = [] ∨
        ((∃ e, pre.getLast? = some e ∧ e.isRunReturn stopMode = true) ∧
          (∀ e ∈ tail, e.isConstruction = false) ∧
          (tail = [.closeConnections s.client, .peerHubStop s.peerHub, .stopcSend] ∨
           tail = [.closeConnections s.client, .peerHubStop s.peerHub]))) ∧
      ((Run receiver s rets).outcome = .returned ↔
        tail = [.closeConnections s.client, .peerHubStop s.peerHub, .stopcSend]) ∧
      ((∃ e ∈ (Run receiver s rets).events, e.isRunReturn stopMode = true) →
        tail = .closeConnections s.client :: .peerHubStop s.peerHub ::
            (if receiver then [.stopcSend] else []) ∧
        (Run receiver s rets).events.filter Event.isShutdown
          = .closeConnections s.client :: .peerHubStop s.peerHub ::
            (if receiver then [.stopcSend] else []) ∧
        (Run receiver s rets).outcome
          = (if receiver then Outcome.returned else Outcome.blockedOnSend)) ∧
      ((∀ e ∈ (Run receiver s rets).events, e.isRunReturn stopMode = false) →
        tail = [] ∧ (∀ e ∈ (Run receiver s rets).events, e.isShutdown = false) ∧
        (Run receiver s rets).outcome ≠ .returned) := by
  obtain ⟨pre, tail, hev, hpre, hshape, hout⟩ := runLoop_shape receiver s participantMode rets
  have hfpre : pre.filter Event.isShutdown = [] := by
    rw [List.filter_eq_nil_iff]
    intro e he
    rw [hpre e he]
    simp
  refine ⟨pre, tail, hev, hpre, ?_, hout, ?_, ?_⟩
  · rcases hshape with h | ⟨h, htail⟩
    · exact Or.inl h
    · refine Or.inr ⟨?_, ?_, ?_⟩
      · rcases h with ⟨_, h⟩ | h
        · exact absurd h (by decide)
        · exact h
      · rw [htail]; exact isShutdown_shutdownEvents receiver s
      · rw [htail]; cases receiver <;> simp [shutdownEvents]
  · intro hret
    obtain ⟨hclose, hoc⟩ := runLoop_stop_reached receiver s participantMode rets (Or.inr hret)
    have hne : tail ≠ [] := by
      intro hnil
      rw [hev, hnil, List.append_nil] at hclose
      have := hpre _ hclose
      simp [Event.isShutdown] at this
    have htail : tail = shutdownEvents receiver s := by
      rcases hshape with h | ⟨_, h⟩
      · exact absurd h hne
      · exact h
    refine ⟨htail, ?_, hoc⟩
    rw [Run, hev, List.filter_append, hfpre, List.nil_append, htail]
    exact filter_isShutdown_shutdownEvents receiver s
  · intro hno
    have htail : tail = [] := by
      rcases hshape with h | ⟨h, _⟩
      · exact h
      · rcases h with ⟨_, h⟩ | ⟨e, he, hr⟩
        · exact absurd h (by decide)
        · have hmem : e ∈ (Run receiver s rets).events := by
            rw [Run, hev]
            exact List.mem_append_left _ (List.mem_of_getLast?_eq_some he)
          rw [hno e hmem] at hr
          cases hr
    refine ⟨htail, ?_, ?_⟩
    · intro e he
      rw [Run, hev, htail, List.append_nil] at he
      exact hpre e he
    · intro hret
      have := hout.mp hret
      rw [htail] at this
      cases this

/-! ## Stopping -/

theorem Stop_of_stopped (sender : Bool) (s : Server) (h : s.mode = stopMode) :
    Stop sender s = { events := [], server := s, outcome := .returned } := by
  simp [Stop, h]

/-- C7: from every state whose mode is participant or standby, `Stop` sets the
mode register to stopped, then calls `stop()` once on the role object of the
captured mode (`s.p` for participant, `s.s` for standby) and on no other, and
only then waits on `stopc`; it changes no other field. -/
theorem Stop_stops_matching_role (sender : Bool) (s : Server)
    (h : s.mode = participantMode ∨ s.mode = standbyMode) :
    (Stop sender s).server = { s with mode := stopMode } ∧
    (Stop sender s).events
      = .modeSet stopMode ::
          (if s.mode = participantMode then Event.participantStop s.p else Event.standbyStop s.s) ::
          (if sender then [.stopcRecv] else []) ∧
    (Stop sender s).outcome = (if sender then Outcome.returned else Outcome.blockedOnRecv) := by
  rcases h with h | h <;> cases sender <;>
    simp [Stop, h, stopMode, participantMode, standbyMode]

theorem Stop_stops_matching_role_witness :
    (exampleServer.asParticipant.asStandby.mode = participantMode ∨
      exampleServer.asParticipant.asStandby.mode = standbyMode) ∧
    (Stop true exampleServer.asParticipant.asStandby).events
      = [.modeSet stopMode, .standbyStop (some exampleServer.buildStandby), .stopcRecv] :=
  ⟨Or.inr rfl, (Stop_stops_matching_role true exampleServer.asParticipant.asStandby (Or.inr rfl)).2.1⟩

/-- C8: from every state whose mode is stopped, and so from the server `New`
returns, `Stop` returns at once: it makes no call (no `stop()` of a role, no
receive on `stopc`) and leaves every field of the server as it was. -/
theorem Stop_when_stopped (sender : Bool) (s : Server)
    (h : s.mode = stopMode ∨ ∃ d c id, New d c id = .ok s) :
    Stop sender s = { events := [], server := s, outcome := .returned } := by
  have hm : s.mode = stopMode := by
    rcases h with h | ⟨d, c, id, h⟩
    · exact h
    · exact New_mode d c id s h
  exact Stop_of_stopped sender s hm

theorem Stop_when_stopped_witness :
    (exampleServer.mode = stopMode ∨ ∃ d c id, New d c id = .ok exampleServer) ∧
    Stop false exampleServer = { events := [], server := exampleServer, outcome := .returned } :=
  ⟨Or.inr ⟨100, exampleConfig, 7, rfl⟩,
    Stop_when_stopped false exampleServer (Or.inr ⟨100, exampleConfig, 7, rfl⟩)⟩

/-- Two calls of `Stop` with nothing in between: when the first completes, the
second starts from the state the first left, makes no call, so it invokes no
`stop()` of a role, returns, and leaves the server as it was. -/
theorem Stop_twice (sender sender2 : Bool) (s : Server)
    (h : (Stop sender s).outcome = .returned) :
    Stop sender2 (Stop sender s).server
      = { events := [], server := (Stop sender s).server, outcome := .returned } := by
  have hm : (Stop sender s).server.mode = stopMode := by
    by_cases hs : s.mode = stopMode
    · simp [Stop, hs]
    · cases sender <;> simp [Stop, hs]
  exact Stop_of_stopped sender2 _ hm

theorem Stop_twice_witness :
    (Stop true exampleServer.asParticipant).outcome = .returned ∧
    Stop false (Stop true exampleServer.asParticipant).server
      = { events := [], server := (Stop true exampleServer.asParticipant).server
          outcome := .returned } :=
  ⟨rfl, Stop_twice true false exampleServer.asParticipant rfl⟩

/-! ## Single active role -/

/-- C10 (as stated, refuted): right after the first statement of `Run` on the
server `New` returned, the participant object is installed and is the only
role object, yet the mode register still holds stopped; and when the first
participant has returned standby, right after the standby is constructed both
role objects are installed, the standby is the current one, and the mode
register still holds participant.  Moreover a `Stop` issued while the first
participant is running writes stopped to the register although `Run` has not
returned and that participant is still the current role. -/
theorem Run_mode_lags_behind_construction :
    (Run false exampleServer []).steps.head?
      = some ⟨.newParticipant exampleServer.buildParticipant,
          { exampleServer with p := some exampleServer.buildParticipant }⟩ ∧
    currentRole [.newParticipant exampleServer.buildParticipant]
      = some (.participant exampleServer.buildParticipant) ∧
    ({ exampleServer with p := some exampleServer.buildParticipant } : Server).mode = stopMode ∧
    ¬ RoleMatchesMode (currentRole [.newParticipant exampleServer.buildParticipant])
        { exampleServer with p := some exampleServer.buildParticipant } ∧
    (Run false exampleServer [standbyMode]).steps.get? 3
      = some ⟨.newStandby exampleServer.buildStandby,
          { exampleServer.asParticipant with s := some exampleServer.buildStandby }⟩ ∧
    ¬ RoleMatchesMode
        (currentRole (((Run false exampleServer [standbyMode]).steps.take 4).map Step.ev))
        { exampleServer.asParticipant with s := some exampleServer.buildStandby } ∧
    (Run false exampleServer []).outcome = .inParticipantRun ∧
    (Stop false (Run false exampleServer []).server).outcome = .blockedOnRecv ∧
    ¬ RoleMatchesMode (currentRole (Run false exampleServer []).events)
        (Stop false (Run false exampleServer []).server).server := by
  refine ⟨rfl, rfl, rfl, ?_, rfl, ?_, rfl, rfl, ?_⟩
  · rintro ⟨role, hr, hm, _⟩
    simp only [currentRole, currentRoleFrom, List.foldl, stepRole, Option.some.injEq] at hr
    subst hr
    exact absurd hm (by decide)
  · rintro ⟨role, hr, hm, _⟩
    have hcur : currentRole (((Run false exampleServer [standbyMode]).steps.take 4).map Step.ev)
        = some (.standby exampleServer.buildStandby) := rfl
    rw [hcur] at hr
    simp only [Option.some.injEq] at hr
    subst hr
    exact absurd hm (by decide)
  · rintro ⟨role, hr, hm, _⟩
    have hcur : currentRole (Run false exampleServer []).events
        = some (.participant exampleServer.buildParticipant) := rfl
    rw [hcur] at hr
    simp only [Option.some.injEq] at hr
    subst hr
    exact absurd hm (by decide)

/-- C10 (amended): in every execution of `Run`, after every executed statement
other than the construction of a role, the most recently constructed role
object is the current one, the mode register equals its mode and selects that
very object (`s.p` under participant, `s.s` under standby). -/
theorem Run_current_role_matches_mode (receiver : Bool) (s : Server) (rets : List Int)
    (pre post : List Step) (st : Step)
    (hs : (Run receiver s rets).steps = pre ++ st :: post)
    (hc : st.ev.isConstruction = false) :
    ∃ role, currentRole ((pre ++ [st]).map Step.ev) = some role ∧
      st.post.mode = role.mode ∧ st.post.dispatchedRole = some role :=
  holdsAlong_split none _ pre post st
    (runLoop_holdsAlong receiver s participantMode rets none (fun h => absurd rfl h)) hs hc

theorem Run_current_role_matches_mode_witness :
    (Run false exampleServer []).steps
      = [Step.mk (.newParticipant exampleServer.buildParticipant)
          { exampleServer with p := some exampleServer.buildParticipant }] ++
        Step.mk (.modeSet participantMode) exampleServer.asParticipant :: [] ∧
    (Step.mk (.modeSet participantMode) exampleServer.asParticipant).ev.isConstruction = false ∧
    ∃ role,
      currentRole (([Step.mk (.newParticipant exampleServer.buildParticipant)
          { exampleServer with p := some exampleServer.buildParticipant }] ++
        [Step.mk (.modeSet participantMode) exampleServer.asParticipant]).map Step.ev)
        = some role ∧
      (Step.mk (.modeSet participantMode) exampleServer.asParticipant).post.mode = role.mode ∧
      (Step.mk (.modeSet participantMode) exampleServer.asParticipant).post.dispatchedRole
        = some role :=
  ⟨rfl, rfl, Run_current_role_matches_mode false exampleServer []
    [Step.mk (.newParticipant exampleServer.buildParticipant)
      { exampleServer with p := some exampleServer.buildParticipant }] []
    (Step.mk (.modeSet participantMode) exampleServer.asParticipant) rfl rfl⟩

/-! ## Writers of the mode register -/

theorem runLoop_modeWrites_mem (receiver : Bool) (s : Server) (next : Int) (rets : List Int) :
    ∀ m ∈ modeWrites (runLoop receiver s next rets).events,
      m = participantMode ∨ m = standbyMode := by
  induction rets generalizing s next with
  | nil =>
    by_cases h1 : next = participantMode
    · subst h1; rw [runLoop_participant_nil]; simp [RunResult.events, modeWrites]
    by_cases h2 : next = standbyMode
    · subst h2; rw [runLoop_standby_nil]; simp [RunResult.events, modeWrites]
    by_cases h3 : next = stopMode
    · subst h3; rw [runLoop_stop]; cases receiver <;> simp [RunResult.events, modeWrites]
    · rw [runLoop_other _ _ _ _ h1 h2 h3]; simp [RunResult.events, modeWrites]
  | cons ret rest ih =>
    by_cases h1 : next = participantMode
    · subst h1
      rw [runLoop_participant_cons, events_after, modeWrites_append]
      intro m hm
      rcases List.mem_append.mp hm with h | h
      · simp [modeWrites] at h; exact Or.inl h
      · exact ih _ _ m h
    by_cases h2 : next = standbyMode
    · subst h2
      rw [runLoop_standby_cons, events_after, modeWrites_append]
      intro m hm
      rcases List.mem_append.mp hm with h | h
      · simp [modeWrites] at h; exact Or.inr h
      · exact ih _ _ m h
    by_cases h3 : next = stopMode
    · subst h3; rw [runLoop_stop]; cases receiver <;> simp [RunResult.events, modeWrites]
    · rw [runLoop_other _ _ _ _ h1 h2 h3]; simp [RunResult.events, modeWrites]

/-- C11 (as stated, refuted): `Stop` called on a node whose participant is
running changes the mode register from participant to stopped; the one value
it writes is stopped. -/
theorem Stop_writes_mode :
    exampleServer.asParticipant.mode = participantMode ∧
    (Stop false exampleServer.asParticipant).server.mode = stopMode ∧
    (Stop false exampleServer.asParticipant).server.mode ≠ exampleServer.asParticipant.mode ∧
    modeWrites (Stop false exampleServer.asParticipant).events = [stopMode] := by
  refine ⟨rfl, rfl, ?_, rfl⟩
  show stopMode ≠ participantMode
  decide

/-- C11 (amended): the mode register has two writers.  `Run` writes only
participant and standby; `Stop` writes stopped, once, unless the register
already holds stopped, in which case it writes nothing; `SetTick` leaves the
register as it was. -/
theorem modeFlag_writers (sender receiver : Bool) (s : Server) (d : Int) (rets : List Int) :
    (SetTick s d).mode = s.mode ∧
    (∀ m ∈ modeWrites (Run receiver s rets).events, m = participantMode ∨ m = standbyMode) ∧
    modeWrites (Stop sender s).events = (if s.mode = stopMode then [] else [stopMode]) ∧
    (Stop sender s).server.mode = stopMode ∧
    ((Stop sender s).server.mode = s.mode ↔ s.mode = stopMode) := by
  refine ⟨rfl, runLoop_modeWrites_mem receiver s participantMode rets, ?_, ?_, ?_⟩
  · by_cases h : s.mode = stopMode
    · simp [Stop, h, modeWrites]
    · rw [if_neg h]
      by_cases h1 : s.mode = participantMode
      · cases sender <;> simp [Stop, h, h1, modeWrites]
      · by_cases h2 : s.mode = standbyMode
        · cases sender <;> simp [Stop, h, h1, h2, modeWrites]
        · cases sender <;> simp [Stop, h, h1, h2, modeWrites]
  · by_cases h : s.mode = stopMode
    · simp [Stop, h]
    · cases sender <;> simp [Stop, h]
  · by_cases h : s.mode = stopMode
    · simp [Stop, h]
    · cases sender <;> simp [Stop, h] <;> exact fun h2 => h h2.symm

/-! ## `SetTick` -/

/-- C13: `SetTick(d)` stores `d` as the heartbeat interval and changes no other
field of the server, the two role objects included, so the interval of a
participant that is already constructed stays as it was; a second `SetTick`
overrides the first. -/
theorem SetTick_frame (s : Server) (d d1 d2 : Int) :
    (SetTick s d).tickDuration = d ∧
    SetTick s d = { s with tickDuration := d } ∧
    (SetTick s d).mode = s.mode ∧ (SetTick s d).nodes = s.nodes ∧
    (SetTick s d).id = s.id ∧ (SetTick s d).pubAddr = s.pubAddr ∧
    (SetTick s d).raftPubAddr = s.raftPubAddr ∧ (SetTick s d).config = s.config ∧
    (SetTick s d).client = s.client ∧ (SetTick s d).peerHub = s.peerHub ∧
    (SetTick s d).p = s.p ∧ (SetTick s d).s = s.s ∧
    (SetTick s d).p.map Participant.tickDuration = s.p.map Participant.tickDuration ∧
    SetTick (SetTick s d1) d2 = SetTick s d2 :=
  ⟨rfl, rfl, rfl, rfl, rfl, rfl, rfl, rfl, rfl, rfl, rfl, rfl, rfl, rfl⟩

/-! ## The panic of `Run` -/

theorem runLoop_no_panic (receiver : Bool) (s : Server) (next : Int) (rets : List Int)
    (hn : next = participantMode ∨ next = standbyMode ∨ next = stopMode)
    (hr : ∀ r ∈ rets, r = participantMode ∨ r = standbyMode ∨ r = stopMode) (msg : String) :
    (runLoop receiver s next rets).outcome ≠ .panicked msg := by
  induction rets generalizing s next with
  | nil =>
    rcases hn with rfl | rfl | rfl
    · rw [runLoop_participant_nil]; simp
    · rw [runLoop_standby_nil]; simp
    · rw [runLoop_stop]; cases receiver <;> simp
  | cons ret rest ih =>
    have h1 := hr ret (List.mem_cons_self _ _)
    have h2 : ∀ r ∈ rest, r = participantMode ∨ r = standbyMode ∨ r = stopMode :=
      fun r hx => hr r (List.mem_cons_of_mem _ hx)
    rcases hn with rfl | rfl | rfl
    · rw [runLoop_participant_cons]; exact ih _ _ h1 h2
    · rw [runLoop_standby_cons]; exact ih _ _ h1 h2
    · rw [runLoop_stop]; cases receiver <;> simp

theorem runLoop_panic_events (receiver : Bool) (s : Server) (k bad : Int) (pre extra : List Int)
    (hk : k = participantMode ∨ k = standbyMode)
    (hpre : ∀ r ∈ pre, r = participantMode ∨ r = standbyMode)
    (h1 : bad ≠ participantMode) (h2 : bad ≠ standbyMode) (h3 : bad ≠ stopMode) :
    (runLoop receiver s k (pre ++ bad :: extra)).events
        = expectedEvents s k (pre ++ [bad]) ++ [.panic "unsupport mode"] ∧
    (runLoop receiver s k (pre ++ bad :: extra)).outcome = .panicked "unsupport mode" := by
  induction pre generalizing s k with
  | nil =>
    rcases hk with rfl | rfl
    · rw [List.nil_append, runLoop_participant_cons, events_after,
        runLoop_other _ _ _ _ h1 h2 h3]
      exact ⟨rfl, rfl⟩
    · rw [List.nil_append, runLoop_standby_cons, events_after,
        runLoop_other _ _ _ _ h1 h2 h3]
      exact ⟨rfl, rfl⟩
  | cons r pre ih =>
    have hr : r = participantMode ∨ r = standbyMode := hpre r (List.mem_cons_self _ _)
    have hpre2 : ∀ x ∈ pre, x = participantMode ∨ x = standbyMode :=
      fun x hx => hpre x (List.mem_cons_of_mem _ hx)
    rcases hk with rfl | rfl
    · obtain ⟨he, ho⟩ := ih s.asParticipant r hr hpre2
      rw [List.cons_append, runLoop_participant_cons, events_after, he,
        expectedEvents_asParticipant]
      refine ⟨?_, ho⟩
      simp [expectedEvents, roleEvents]
    · obtain ⟨he, ho⟩ := ih s.asStandby r hr hpre2
      rw [List.cons_append, runLoop_standby_cons, events_after, he, expectedEvents_asStandby]
      refine ⟨?_, ho⟩
      simp [expectedEvents, roleEvents, standbyMode, participantMode]

theorem runLoop_panic_split (receiver : Bool) (s : Server) (k : Int) (rets : List Int)
    (msg : String) (hk : k = participantMode ∨ k = standbyMode)
    (h : (runLoop receiver s k rets).outcome = .panicked msg) :
    ∃ pre bad extra, rets = pre ++ bad :: extra ∧
      (∀ r ∈ pre, r = participantMode ∨ r = standbyMode) ∧
      bad ≠ participantMode ∧ bad ≠ standbyMode ∧ bad ≠ stopMode := by
  induction rets generalizing s k with
  | nil =>
    rcases hk with rfl | rfl
    · rw [runLoop_participant_nil] at h; simp at h
    · rw [runLoop_standby_nil] at h; simp at h
  | cons ret rest ih =>
    have h' : ∃ s', (runLoop receiver s' ret rest).outcome = .panicked msg := by
      rcases hk with rfl | rfl
      · rw [runLoop_participant_cons] at h; exact ⟨_, h⟩
      · rw [runLoop_standby_cons] at h; exact ⟨_, h⟩
    obtain ⟨s', hs'⟩ := h'
    by_cases h1 : ret = participantMode
    · obtain ⟨pre, bad, extra, he, hp, hb⟩ := ih s' ret (Or.inl h1) hs'
      refine ⟨ret :: pre, bad, extra, by rw [he]; rfl, ?_, hb⟩
      intro r hr
      rcases List.mem_cons.mp hr with rfl | hr
      · exact Or.inl h1
      · exact hp r hr
    by_cases h2 : ret = standbyMode
    · obtain ⟨pre, bad, extra, he, hp, hb⟩ := ih s' ret (Or.inr h2) hs'
      refine ⟨ret :: pre, bad, extra, by rw [he]; rfl, ?_, hb⟩
      intro r hr
      rcases List.mem_cons.mp hr with rfl | hr
      · exact Or.inr h2
      · exact hp r hr
    by_cases h3 : ret = stopMode
    · subst h3
      rw [runLoop_stop] at hs'
      cases receiver <;> simp at hs'
    · exact ⟨[], ret, rest, rfl, by simp, h1, h2, h3⟩

theorem expectedEvents_not_shutdown (s : Server) (k : Int) (rets : List Int) :
    ∀ e ∈ expectedEvents s k rets, e.isShutdown = false := by
  induction rets generalizing k with
  | nil => simp [expectedEvents]
  | cons r rest ih =>
    intro e he
    rw [expectedEvents] at he
    rcases List.mem_append.mp he with h | h
    · by_cases hk : k = participantMode
      · simp [roleEvents, hk] at h
        rcases h with rfl | rfl | rfl <;> rfl
      · simp [roleEvents, hk] at h
        rcases h with rfl | rfl | rfl <;> rfl
    · exact ih r e h

/-- C14: `Run` panics exactly when some role's `run()` returns a value other
than participant, standby and stopped (the earlier roles having returned
participant or standby).  If every `run()` returns one of the three modes `Run`
never panics; at the first other value `Run` panics right after that `run()`
returned: no role is constructed after it and no shutdown call is made. -/
theorem Run_panics_iff (receiver : Bool) (s : Server) (rets : List Int) :
    ((∃ msg, (Run receiver s rets).outcome = .panicked msg) ↔
      ∃ pre bad extra, rets = pre ++ bad :: extra ∧
        (∀ r ∈ pre, r = participantMode ∨ r = standbyMode) ∧
        bad ≠ participantMode ∧ bad ≠ standbyMode ∧ bad ≠ stopMode) ∧
    ((∀ r ∈ rets, r = participantMode ∨ r = standbyMode ∨ r = stopMode) →
      ∀ msg, (Run receiver s rets).outcome ≠ .panicked msg) ∧
    (∀ pre bad extra, rets = pre ++ bad :: extra →
      (∀ r ∈ pre, r = participantMode ∨ r = standbyMode) →
      bad ≠ participantMode → bad ≠ standbyMode → bad ≠ stopMode →
      (Run receiver s rets).events
        = expectedEvents s participantMode (pre ++ [bad]) ++ [.panic "unsupport mode"] ∧
      (Run receiver s rets).outcome = .panicked "unsupport mode" ∧
      (∀ e ∈ (Run receiver s rets).events, e.isShutdown = false) ∧
      (Run receiver s rets).events.countP Event.isConstruction = pre.length + 1) := by
  refine ⟨⟨?_, ?_⟩, ?_, ?_⟩
  · rintro ⟨msg, h⟩
    exact runLoop_panic_split receiver s participantMode rets msg (Or.inl rfl) h
  · rintro ⟨pre, bad, extra, rfl, hp, h1, h2, h3⟩
    exact ⟨_, (runLoop_panic_events receiver s participantMode bad pre extra (Or.inl rfl)
      hp h1 h2 h3).2⟩
  · intro hr msg
    exact runLoop_no_panic receiver s participantMode rets (Or.inl rfl) hr msg
  · rintro pre bad extra rfl hp h1 h2 h3
    obtain ⟨he, ho⟩ :=
      runLoop_panic_events receiver s participantMode bad pre extra (Or.inl rfl) hp h1 h2 h3
    refine ⟨he, ho, ?_, ?_⟩
    · rw [Run, he]
      intro e hmem
      rcases List.mem_append.mp hmem with hmem | hmem
      · exact expectedEvents_not_shutdown s _ _ e hmem
      · simp at hmem; subst hmem; rfl
    · rw [Run, he, List.countP_append, countP_construction_expectedEvents]
      simp [Event.isConstruction]

/-! ## The node set built by `New` -/

theorem find?_replace (m : NodeMap) (k a : String) (v : Bool) :
    ((m.map (fun e => if e.1 == k then (k, v) else e)).find? (fun e => e.1 == a)).map Prod.snd
      = if a = k then (if m.any (fun e => e.1 == k) then some v else none)
        else (m.find? (fun e => e.1 == a)).map Prod.snd := by
  induction m with
  | nil => simp
  | cons e m ih =>
    simp only [List.map_cons, List.find?_cons, List.any_cons]
    by_cases hek : e.1 = k
    · have h1 : (e.1 == k) = true := by simpa using hek
      by_cases hak : a = k
      · subst hak
        simp [h1]
      · have h2 : (k == a) = false := by simpa using fun h => hak h.symm
        have h3 : (e.1 == a) = false := by rw [hek]; exact h2
        simp only [h1, if_true, h2, h3, ih, if_neg hak]
    · have h1 : (e.1 == k) = false := by simpa using hek
      simp only [h1, Bool.false_eq_true, if_false, Bool.false_or]
      by_cases hea : e.1 = a
      · have h2 : (e.1 == a) = true := by simpa using hea
        have hak : ¬ a = k := fun h => hek (hea.trans h)
        simp only [h2, if_neg hak]
      · have h2 : (e.1 == a) = false := by simpa using hea
        simp only [h2, ih]

theorem NodeMap.get?_set (m : NodeMap) (k a : String) (v : Bool) :
    (NodeMap.set m k v).get? a = if a = k then some v else m.get? a := by
  unfold NodeMap.set NodeMap.get?
  by_cases hany : m.any (fun e => e.1 == k) = true
  · rw [if_pos hany, find?_replace, hany]; simp
  · rw [if_neg hany]
    have hall : ∀ x ∈ m, ¬ (x.1 = k) := by
      intro x hx hxk
      exact hany (List.any_eq_true.mpr ⟨x, hx, by simp [hxk]⟩)
    rw [List.find?_append]
    by_cases hak : a = k
    · subst hak
      have hnone : m.find? (fun e => e.1 == a) = none := by
        rw [List.find?_eq_none]
        intro x hx
        simpa using hall x hx
      simp [hnone]
    · have hne : ¬ (k = a) := fun h => hak h.symm
      simp [hak, hne]

theorem NodeMap.keys_set (m : NodeMap) (k : String) (v : Bool) :
    (NodeMap.set m k v).map Prod.fst
      = if k ∈ m.map Prod.fst then m.map Prod.fst else m.map Prod.fst ++ [k] := by
  unfold NodeMap.set
  by_cases hany : m.any (fun e => e.1 == k) = true
  · have hmem : k ∈ m.map Prod.fst := by
      obtain ⟨x, hx, hxk⟩ := List.any_eq_true.mp hany
      exact List.mem_map.mpr ⟨x, hx, by simpa using hxk⟩
    rw [if_pos hany, if_pos hmem, List.map_map]
    apply List.map_congr_left
    intro x _
    by_cases hxk : x.1 = k <;> simp [hxk]
  · have hmem : ¬ k ∈ m.map Prod.fst := by
      intro h
      obtain ⟨x, hx, hxk⟩ := List.mem_map.mp h
      exact hany (List.any_eq_true.mpr ⟨x, hx, by simp [hxk]⟩)
    rw [if_neg hany, if_neg hmem]; simp

theorem get?_seedNodes (peers : List String) (m : NodeMap) (a : String) :
    (seedNodes peers m).get? a = if a ∈ peers then some true else m.get? a := by
  induction peers generalizing m with
  | nil => simp [seedNodes]
  | cons p ps ih =>
    have : seedNodes (p :: ps) m = seedNodes ps (m.set p true) := rfl
    rw [this, ih, NodeMap.get?_set]
    by_cases h1 : a ∈ ps <;> by_cases h2 : a = p <;> simp [h1, h2]

theorem keys_seedNodes (peers : List String) (m : NodeMap) :
    ((m.map Prod.fst).Nodup → ((seedNodes peers m).map Prod.fst).Nodup) ∧
    ∀ a, a ∈ (seedNodes peers m).map Prod.fst ↔ (a ∈ peers ∨ a ∈ m.map Prod.fst) := by
  induction peers generalizing m with
  | nil => simp [seedNodes]
  | cons p ps ih =>
    have hs : seedNodes (p :: ps) m = seedNodes ps (m.set p true) := rfl
    rw [hs]
    obtain ⟨ih1, ih2⟩ := ih (m.set p true)
    refine ⟨fun hn => ih1 ?_, fun a => ?_⟩
    · rw [NodeMap.keys_set]
      by_cases hp : p ∈ m.map Prod.fst
      · rw [if_pos hp]; exact hn
      · rw [if_neg hp]
        exact List.Nodup.append hn (List.nodup_singleton p) (by simpa using hp)
    · rw [ih2, NodeMap.keys_set]
      by_cases hp : p ∈ m.map Prod.fst
      · rw [if_pos hp]
        constructor
        · rintro (h | h)
          · exact Or.inl (List.mem_cons_of_mem _ h)
          · exact Or.inr h
        · rintro (h | h)
          · rcases List.mem_cons.mp h with rfl | h
            · exact Or.inr hp
            · exact Or.inl h
          · exact Or.inr h
      · rw [if_neg hp]
        simp only [List.mem_append, List.mem_singleton, List.mem_cons]
        tauto
/-! ## `New` -/

/-- C15: for every configuration that passes `Sanitize` and whose TLS setup
succeeds when the peer scheme is https, `New(c, id)` returns a server whose mode
is stopped, whose identity is `id`, `c.Addr`, `c.Peer.Addr`, whose heartbeat
interval is the default, with no role installed, and whose node map holds
`true` for an address exactly when the address occurs in `c.Peers`, with one
entry per address. -/
theorem New_initial_state (d : Int) (c : Config) (id : Int)
    (hs : c.sanitizeErr = none)
    (htls : c.peerScheme = "https" → c.peerClientConfig ≠ none) :
    ∃ s, New d c id = .ok s ∧ s.mode = stopMode ∧ s.id = id ∧ s.pubAddr = c.addr ∧
      s.raftPubAddr = c.peerAddr ∧ s.tickDuration = d ∧ s.p = none ∧ s.s = none ∧
      (∀ a, s.nodes.get? a = if a ∈ c.peers then some true else none) ∧
      (∀ a, a ∈ s.nodes.map Prod.fst ↔ a ∈ c.peers) ∧
      (s.nodes.map Prod.fst).Nodup := by
  have hnodes : ∀ tc, (∀ a, (newServer d c id tc).nodes.get? a
        = if a ∈ c.peers then some true else none) ∧
      (∀ a, a ∈ (newServer d c id tc).nodes.map Prod.fst ↔ a ∈ c.peers) ∧
      ((newServer d c id tc).nodes.map Prod.fst).Nodup := by
    intro tc
    have hk := keys_seedNodes c.peers NodeMap.empty
    refine ⟨fun a => ?_, fun a => ?_, hk.1 (by simp [NodeMap.empty])⟩
    · show (seedNodes c.peers NodeMap.empty).get? a = _
      rw [get?_seedNodes]; rfl
    · show a ∈ (seedNodes c.peers NodeMap.empty).map Prod.fst ↔ _
      rw [hk.2]; simp [NodeMap.empty]
  unfold New
  rw [hs]
  by_cases hsch : c.peerScheme = "https"
  · cases hcc : c.peerClientConfig with
    | none => exact absurd hcc (htls hsch)
    | some tc =>
      simp only [hsch, if_true]
      exact ⟨_, rfl, rfl, rfl, rfl, rfl, rfl, rfl, rfl, hnodes tc⟩
  · simp only [hsch, if_false]
    exact ⟨_, rfl, rfl, rfl, rfl, rfl, rfl, rfl, rfl, hnodes _⟩

theorem New_initial_state_witness :
    exampleConfig.sanitizeErr = none ∧
    (exampleConfig.peerScheme = "https" → exampleConfig.peerClientConfig ≠ none) ∧
    ∃ s, New 100 exampleConfig 7 = .ok s ∧ s.mode = stopMode ∧ s.id = 7 ∧
      s.pubAddr = exampleConfig.addr ∧
      s.raftPubAddr = exampleConfig.peerAddr ∧ s.tickDuration = 100 ∧ s.p = none ∧ s.s = none ∧
      (∀ a, s.nodes.get? a = if a ∈ exampleConfig.peers then some true else none) ∧
      (∀ a, a ∈ s.nodes.map Prod.fst ↔ a ∈ exampleConfig.peers) ∧
      (s.nodes.map Prod.fst).Nodup :=
  ⟨rfl, by decide, New_initial_state 100 exampleConfig 7 rfl (by decide)⟩

/-- C16: `New` ends fatally exactly when `Sanitize` fails, or the peer scheme is
https and building the client TLS configuration fails.  With any other scheme
the result is the server built around the insecure-skip-verify policy whatever
the TLS setup of the configuration would give; with https and a successful
setup it is the server built around the policy the configuration produced. -/
theorem New_fatal_iff (d : Int) (c : Config) (id : Int) :
    ((∃ e, New d c id = .error e) ↔
      (c.sanitizeErr ≠ none ∨ (c.peerScheme = "https" ∧ c.peerClientConfig = none))) ∧
    (c.sanitizeErr = none → c.peerScheme ≠ "https" →
      New d c id = .ok (newServer d c id { insecureSkipVerify := true, material := [] })) ∧
    (∀ tc, c.sanitizeErr = none → c.peerScheme = "https" → c.peerClientConfig = some tc →
      New d c id = .ok (newServer d c id tc)) ∧
    (∀ tc, (newServer d c id tc).client = newClient tc ∧
      (newServer d c id tc).peerHub = newPeerHub c.peers { tlsClientConfig := tc }) := by
  refine ⟨?_, ?_, ?_, fun tc => ⟨rfl, rfl⟩⟩
  · unfold New
    cases hs : c.sanitizeErr with
    | some e => simp
    | none =>
      by_cases hsch : c.peerScheme = "https"
      · cases hcc : c.peerClientConfig with
        | none => simp [hsch]
        | some tc => simp [hsch]
      · simp [hsch]
  · intro hs hsch
    unfold New
    rw [hs]
    simp only [hsch, if_false]
  · intro tc hs hsch hcc
    unfold New
    rw [hs, hcc]
    simp only [hsch, if_true]

/-! ## The collaborators shared by the roles -/

theorem sharedWith_refl (s : Server) : s.sharedWith s :=
  ⟨rfl, rfl, rfl, rfl, rfl, rfl, rfl, rfl⟩

theorem sharedWith_build (s s0 : Server) (h : s.sharedWith s0) :
    s.buildParticipant = s0.buildParticipant ∧ s.buildStandby = s0.buildStandby := by
  obtain ⟨_, h2, h3, h4, h5, h6, h7, h8⟩ := h
  simp [Server.buildParticipant, Server.buildStandby, h2, h3, h4, h5, h6, h7, h8]

theorem runLoop_shared (receiver : Bool) (s s0 : Server) (next : Int) (rets : List Int)
    (h : s.sharedWith s0) :
    (∀ st ∈ (runLoop receiver s next rets).steps, st.post.sharedWith s0) ∧
    (runLoop receiver s next rets).server.sharedWith s0 ∧
    (∀ p, Event.newParticipant p ∈ (runLoop receiver s next rets).events →
      p = s0.buildParticipant) ∧
    (∀ sb, Event.newStandby sb ∈ (runLoop receiver s next rets).events →
      sb = s0.buildStandby) := by
  have hb := sharedWith_build s s0 h
  have hP : s.asParticipant.sharedWith s0 := h
  have hS : s.asStandby.sharedWith s0 := h
  have hP1 : ({ s with p := some s.buildParticipant } : Server).sharedWith s0 := h
  have hS1 : ({ s with s := some s.buildStandby } : Server).sharedWith s0 := h
  induction rets generalizing s next with
  | nil =>
    by_cases h1 : next = participantMode
    · subst h1
      rw [runLoop_participant_nil]
      refine ⟨?_, hP, ?_, ?_⟩
      · intro st hst
        simp only [List.mem_cons, List.mem_singleton, List.not_mem_nil, or_false] at hst
        rcases hst with rfl | rfl
        · exact hP1
        · exact hP
      · intro p hp
        simp [RunResult.events] at hp
        rw [hp]; exact hb.1
      · intro sb hsb
        simp [RunResult.events] at hsb
    by_cases h2 : next = standbyMode
    · subst h2
      rw [runLoop_standby_nil]
      refine ⟨?_, hS, ?_, ?_⟩
      · intro st hst
        simp only [List.mem_cons, List.mem_singleton, List.not_mem_nil, or_false] at hst
        rcases hst with rfl | rfl
        · exact hS1
        · exact hS
      · intro p hp
        simp [RunResult.events] at hp
      · intro sb hsb
        simp [RunResult.events] at hsb
        rw [hsb]; exact hb.2
    by_cases h3 : next = stopMode
    · subst h3
      rw [runLoop_stop]
      cases receiver <;> simp [RunResult.events, h]
    · rw [runLoop_other _ _ _ _ h1 h2 h3]
      simp [RunResult.events, h]
  | cons ret rest ih =>
    by_cases h1 : next = participantMode
    · subst h1
      obtain ⟨i1, i2, i3, i4⟩ := ih s.asParticipant ret hP (sharedWith_build _ _ hP) hP hP hP hP
      rw [runLoop_participant_cons, events_after]
      refine ⟨?_, i2, ?_, ?_⟩
      · intro st hst
        simp only [RunResult.after, List.mem_append, List.mem_cons, List.mem_singleton,
          List.not_mem_nil, or_false] at hst
        rcases hst with (rfl | rfl | rfl) | hst
        · exact hP1
        · exact hP
        · exact hP
        · exact i1 st hst
      · intro p hp
        rcases List.mem_append.mp hp with hp | hp
        · simp at hp; rw [hp]; exact hb.1
        · exact i3 p hp
      · intro sb hsb
        rcases List.mem_append.mp hsb with hsb | hsb
        · simp at hsb
        · exact i4 sb hsb
    by_cases h2 : next = standbyMode
    · subst h2
      obtain ⟨i1, i2, i3, i4⟩ := ih s.asStandby ret hS (sharedWith_build _ _ hS) hS hS hS hS
      rw [runLoop_standby_cons, events_after]
      refine ⟨?_, i2, ?_, ?_⟩
      · intro st hst
        simp only [RunResult.after, List.mem_append, List.mem_cons, List.mem_singleton,
          List.not_mem_nil, or_false] at hst
        rcases hst with (rfl | rfl | rfl) | hst
        · exact hS1
        · exact hS
        · exact hS
        · exact i1 st hst
      · intro p hp
        rcases List.mem_append.mp hp with hp | hp
        · simp at hp
        · exact i3 p hp
      · intro sb hsb
        rcases List.mem_append.mp hsb with hsb | hsb
        · simp at hsb; rw [hsb]; exact hb.2
        · exact i4 sb hsb
    by_cases h3 : next = stopMode
    · subst h3
      rw [runLoop_stop]
      cases receiver <;> simp [RunResult.events, h]
    · rw [runLoop_other _ _ _ _ h1 h2 h3]
      simp [RunResult.events, h]

/-- C17: in every execution of `Run`, after every statement and at the end the
server holds the configuration, node id, addresses, heartbeat interval, node
map, client and peer hub it held when `Run` was entered, and every participant
and every standby `Run` constructs is built from exactly these values. -/
theorem Run_keeps_collaborators (receiver : Bool) (s : Server) (rets : List Int) :
    (∀ st ∈ (Run receiver s rets).steps, st.post.sharedWith s) ∧
    (Run receiver s rets).server.sharedWith s ∧
    (∀ p, Event.newParticipant p ∈ (Run receiver s rets).events →
      p = newParticipant s.id s.pubAddr s.raftPubAddr s.nodes s.client s.peerHub
            s.tickDuration) ∧
    (∀ sb, Event.newStandby sb ∈ (Run receiver s rets).events →
      sb = newStandby s.id s.pubAddr s.raftPubAddr s.nodes s.client s.peerHub) :=
  runLoop_shared receiver s s participantMode rets (sharedWith_refl s)

/-! ## The mode constants -/

/-- C20: the three mode constants are the iota values of their const specs,
which also count the `raftPrefix` spec: participant is 1, standby is 2, stopped
is 3.  They are pairwise distinct and none is zero, so a zero mode is no
recognized mode: `ServeHTTP` and `ServeRaftHTTP` answer not-found for it and the
loop of `Run` panics when the requested mode is zero. -/
theorem mode_constants (receiver : Bool) (s : Server) (r : Request) (rets : List Int) :
    iotaOf "raftPrefix" = 0 ∧
    participantMode = iotaOf "participantMode" ∧ standbyMode = iotaOf "standbyMode" ∧
    stopMode = iotaOf "stopMode" ∧
    participantMode = 1 ∧ standbyMode = 2 ∧ stopMode = 3 ∧
    participantMode ≠ standbyMode ∧ participantMode ≠ stopMode ∧ standbyMode ≠ stopMode ∧
    participantMode ≠ 0 ∧ standbyMode ≠ 0 ∧ stopMode ≠ 0 ∧
    ServeHTTP { s with mode := 0 } r = .notFound r ∧
    ServeRaftHTTP { s with mode := 0 } r = .notFound r ∧
    (runLoop receiver s 0 rets).outcome = .panicked "unsupport mode" ∧
    (Run receiver s (0 :: rets)).outcome = .panicked "unsupport mode" := by
  have h0 : (runLoop receiver s 0 rets).outcome = .panicked "unsupport mode" := by
    rw [runLoop_other receiver s 0 rets (by decide) (by decide) (by decide)]
  have h1 : (Run receiver s (0 :: rets)).outcome = .panicked "unsupport mode" := by
    rw [Run, runLoop_participant_cons,
      runLoop_other receiver _ 0 rets (by decide) (by decide) (by decide)]
    rfl
  refine ⟨by decide, by decide, by decide, by decide, rfl, rfl, rfl, by decide, by decide,
    by decide, by decide, by decide, by decide, ?_, ?_, h0, h1⟩
  · simp [ServeHTTP, participantMode, standbyMode]
  · simp [ServeRaftHTTP, participantMode]

/-! ## Interleaved executions -/

theorem exec_append (a b : List Action) (n : Node) :
    exec (a ++ b) n = (exec a n).bind (exec b) := by
  induction a generalizing n with
  | nil => rfl
  | cons x xs ih =>
    simp only [List.cons_append, exec]
    cases step x n with
    | none => rfl
    | some n1 => exact ih n1

theorem rolesInstalled_start (d : Int) (c : Config) (id : Int) (s : Server)
    (h : New d c id = .ok s) : (Node.start s).rolesInstalled := by
  have hm := New_mode d c id s h
  refine ⟨?_, ?_, Or.inr rfl, ?_, ?_, ?_⟩
  · intro hx
    simp only [Node.start, hm] at hx
    rcases hx with hx | hx <;> exact absurd hx (by decide)
  · intro hx
    simp only [Node.start, hm] at hx
    exact absurd hx (by decide)
  · intro hx; simp [Node.start] at hx
  · intro m hx; simp [Node.start] at hx
  · intro e he; simp [Node.start] at he


theorem mem_append_singleton_installed (evs : List Event) (e : Event)
    (h : ∀ x ∈ evs, x.receiverInstalled = true) (he : e.receiverInstalled = true) :
    ∀ x ∈ evs ++ [e], x.receiverInstalled = true := by
  intro x hx
  rcases List.mem_append.mp hx with hx | hx
  · exact h x hx
  · simp at hx; rw [hx]; exact he

theorem rolesInstalled_stepRun (n n' : Node) (h : n.rolesInstalled)
    (hs : stepRun n = some n') : n'.rolesInstalled := by
  obtain ⟨h1, h2, h3, h4, h5, h6⟩ := h
  unfold stepRun at hs
  split at hs
  · rename_i next hrun
    split at hs
    · simp only [Option.some.injEq] at hs
      subst hs
      exact ⟨fun _ => rfl, h2, Or.inl rfl, fun hx => by simp at hx,
        fun m hm => ⟨fun _ => rfl, (h5 m hm).2⟩,
        mem_append_singleton_installed _ _ h6 rfl⟩
    · split at hs
      · rename_i hnp hns
        simp only [Option.some.injEq] at hs
        subst hs
        have hp : n.server.p.isSome = true := by
          rcases h3 with h3 | h3
          · exact h3
          · rw [hrun] at h3
            simp only [RunPc.atSwitch.injEq] at h3
            exact absurd h3 hnp
        refine ⟨fun _ => hp, fun _ => rfl, Or.inl hp, fun _ => rfl, ?_,
          mem_append_singleton_installed _ _ h6 rfl⟩
        intro m hm
        exact ⟨fun _ => hp, fun _ => rfl⟩
      · split at hs
        · simp only [Option.some.injEq] at hs
          subst hs
          refine ⟨h1, h2, ?_, fun hx => by simp at hx, h5,
            mem_append_singleton_installed _ _ h6 rfl⟩
          rcases h3 with h3 | h3
          · exact Or.inl h3
          · rename_i hnp _ _
            rw [hrun] at h3
            simp only [RunPc.atSwitch.injEq] at h3
            exact absurd h3 hnp
        · simp only [Option.some.injEq] at hs
          subst hs
          refine ⟨h1, h2, ?_, fun hx => by simp at hx, h5,
            mem_append_singleton_installed _ _ h6 rfl⟩
          rcases h3 with h3 | h3
          · exact Or.inl h3
          · rename_i hnp _ _
            rw [hrun] at h3
            simp only [RunPc.atSwitch.injEq] at h3
            exact absurd h3 hnp
  · rename_i hrun
    simp only [Option.some.injEq] at hs
    subst hs
    have hp : n.server.p.isSome = true := by
      rcases h3 with h3 | h3
      · exact h3
      · rw [hrun] at h3; cases h3
    exact ⟨fun _ => hp,
      fun hx => absurd (show participantMode = standbyMode from hx) (by decide),
      Or.inl hp, fun hx => by simp at hx, h5,
      mem_append_singleton_installed _ _ h6 rfl⟩
  · rename_i hrun
    simp only [Option.some.injEq] at hs
    subst hs
    have hp : n.server.p.isSome = true := by
      rcases h3 with h3 | h3
      · exact h3
      · rw [hrun] at h3; cases h3
    have hsb : n.server.s.isSome = true := h4 (Or.inl hrun)
    exact ⟨fun _ => hp, fun _ => hsb, Or.inl hp, fun _ => hsb, h5,
      mem_append_singleton_installed _ _ h6 rfl⟩
  · rename_i hrun
    simp only [Option.some.injEq] at hs
    subst hs
    refine ⟨h1, h2, ?_, fun hx => by simp at hx, h5,
      mem_append_singleton_installed _ _ h6 rfl⟩
    rcases h3 with h3 | h3
    · exact Or.inl h3
    · rw [hrun] at h3; cases h3
  · cases hs

theorem rolesInstalled_stepRoleReturns (ret : Int) (n n' : Node) (h : n.rolesInstalled)
    (hs : stepRoleReturns ret n = some n') : n'.rolesInstalled := by
  obtain ⟨h1, h2, h3, h4, h5, h6⟩ := h
  unfold stepRoleReturns at hs
  split at hs
  · rename_i hrun
    simp only [Option.some.injEq] at hs
    subst hs
    have hp : n.server.p.isSome = true := by
      rcases h3 with h3 | h3
      · exact h3
      · rw [hrun] at h3; cases h3
    exact ⟨h1, h2, Or.inl hp, fun hx => by simp at hx, h5,
      mem_append_singleton_installed _ _ h6 hp⟩
  · rename_i hrun
    simp only [Option.some.injEq] at hs
    subst hs
    have hp : n.server.p.isSome = true := by
      rcases h3 with h3 | h3
      · exact h3
      · rw [hrun] at h3; cases h3
    exact ⟨h1, h2, Or.inl hp, fun hx => by simp at hx, h5,
      mem_append_singleton_installed _ _ h6 (h4 (Or.inr hrun))⟩
  · cases hs

theorem rolesInstalled_stepStopCall (n n' : Node) (h : n.rolesInstalled)
    (hs : stepStopCall n = some n') : n'.rolesInstalled := by
  obtain ⟨h1, h2, h3, h4, h5, h6⟩ := h
  unfold stepStopCall at hs
  split at hs
  · simp only [Option.some.injEq] at hs
    subst hs
    exact ⟨h1, h2, h3, h4, fun m hm => by simp at hm, h6⟩
  · simp only [Option.some.injEq] at hs
    subst hs
    exact ⟨h1, h2, h3, h4, fun m hm => by simp at hm, h6⟩
  · cases hs

theorem rolesInstalled_stepStop (n n' : Node) (h : n.rolesInstalled)
    (hs : stepStop n = some n') : n'.rolesInstalled := by
  obtain ⟨h1, h2, h3, h4, h5, h6⟩ := h
  unfold stepStop at hs
  split at hs
  · split at hs
    · simp only [Option.some.injEq] at hs
      subst hs
      exact ⟨h1, h2, h3, h4, fun m hm => by simp at hm, h6⟩
    · simp only [Option.some.injEq] at hs
      subst hs
      exact ⟨h1, h2, h3, h4, fun m hm => by simp at hm, h6⟩
  · simp only [Option.some.injEq] at hs
    subst hs
    refine ⟨h1, h2, h3, h4, ?_, h6⟩
    intro m hm
    have hm' : n.server.mode = m := by
      rcases hm with hm | hm
      · simpa using hm
      · simp at hm
    rw [← hm']
    exact ⟨h1, h2⟩
  · rename_i m hst
    simp only [Option.some.injEq] at hs
    subst hs
    refine ⟨fun hx => ?_, fun hx => ?_, h3, h4, ?_, mem_append_singleton_installed _ _ h6 rfl⟩
    · rcases hx with hx | hx
      · exact absurd (show stopMode = participantMode from hx) (by decide)
      · exact absurd (show stopMode = standbyMode from hx) (by decide)
    · exact absurd (show stopMode = standbyMode from hx) (by decide)
    · intro m' hm'
      have : m = m' := by
        rcases hm' with hm' | hm'
        · simp at hm'
        · simpa using hm'
      subst this
      exact h5 m (Or.inl hst)
  · rename_i m hst
    have hm := h5 m (Or.inr hst)
    split at hs
    · rename_i hmp
      simp only [Option.some.injEq] at hs
      subst hs
      exact ⟨h1, h2, h3, h4, fun m' hm' => by simp at hm',
        mem_append_singleton_installed _ _ h6 (hm.1 (Or.inl hmp))⟩
    · split at hs
      · rename_i hms
        simp only [Option.some.injEq] at hs
        subst hs
        exact ⟨h1, h2, h3, h4, fun m' hm' => by simp at hm',
          mem_append_singleton_installed _ _ h6 (hm.2 hms)⟩
      · simp only [Option.some.injEq] at hs
        subst hs
        exact ⟨h1, h2, h3, h4, fun m' hm' => by simp at hm', h6⟩
  · cases hs

theorem rolesInstalled_stepHandOff (n n' : Node) (h : n.rolesInstalled)
    (hs : stepHandOff n = some n') : n'.rolesInstalled := by
  obtain ⟨h1, h2, h3, h4, h5, h6⟩ := h
  unfold stepHandOff at hs
  split at hs
  · rename_i hrun hst
    simp only [Option.some.injEq] at hs
    subst hs
    refine ⟨h1, h2, ?_, fun hx => by simp at hx, fun m hm => by simp at hm, ?_⟩
    · rcases h3 with h3 | h3
      · exact Or.inl h3
      · rw [hrun] at h3; cases h3
    · intro x hx
      rcases List.mem_append.mp hx with hx | hx
      · exact h6 x hx
      · simp at hx
        rcases hx with rfl | rfl <;> rfl
  · cases hs

theorem rolesInstalled_step (a : Action) (n n' : Node) (h : n.rolesInstalled)
    (hs : step a n = some n') : n'.rolesInstalled := by
  cases a with
  | runStep => exact rolesInstalled_stepRun n n' h hs
  | roleReturns ret => exact rolesInstalled_stepRoleReturns ret n n' h hs
  | stopCall => exact rolesInstalled_stepStopCall n n' h hs
  | stopStep => exact rolesInstalled_stepStop n n' h hs
  | handOff => exact rolesInstalled_stepHandOff n n' h hs
  | setTick d =>
    simp only [step, Option.some.injEq] at hs
    subst hs
    exact h

theorem rolesInstalled_exec (acts : List Action) (n n' : Node) (h : n.rolesInstalled)
    (hs : exec acts n = some n') : n'.rolesInstalled := by
  induction acts generalizing n with
  | nil =>
    simp only [exec, Option.some.injEq] at hs
    subst hs
    exact h
  | cons a rest ih =>
    simp only [exec] at hs
    cases hst : step a n with
    | none => rw [hst] at hs; cases hs
    | some n1 =>
      rw [hst] at hs
      exact ih n1 (rolesInstalled_step a n n1 h hst) hs

/-! ## The heartbeat interval of a constructed participant -/

theorem step_tickDuration (a : Action) (n n' : Node) (hs : step a n = some n') :
    n'.server.tickDuration = lastTick n.server.tickDuration [a] := by
  cases a with
  | runStep =>
    simp only [step] at hs
    unfold stepRun at hs
    split at hs
    · split at hs
      · cases hs; rfl
      · split at hs
        · cases hs; rfl
        · split at hs <;> (cases hs; rfl)
    · cases hs; rfl
    · cases hs; rfl
    · cases hs; rfl
    · cases hs
  | roleReturns ret =>
    simp only [step] at hs
    unfold stepRoleReturns at hs
    split at hs
    · cases hs; rfl
    · cases hs; rfl
    · cases hs
  | stopCall =>
    simp only [step] at hs
    unfold stepStopCall at hs
    split at hs
    · cases hs; rfl
    · cases hs; rfl
    · cases hs
  | stopStep =>
    simp only [step] at hs
    unfold stepStop at hs
    split at hs
    · split at hs <;> (cases hs; rfl)
    · cases hs; rfl
    · cases hs; rfl
    · split at hs
      · cases hs; rfl
      · split at hs <;> (cases hs; rfl)
    · cases hs
  | handOff =>
    simp only [step] at hs
    unfold stepHandOff at hs
    split at hs
    · cases hs; rfl
    · cases hs
  | setTick d =>
    simp only [step, Option.some.injEq] at hs
    subst hs
    rfl

theorem lastTick_cons (d0 : Int) (a : Action) (rest : List Action) :
    lastTick d0 (a :: rest) = lastTick (lastTick d0 [a]) rest := by
  cases a <;> rfl

theorem exec_tickDuration (acts : List Action) (n n' : Node) (hs : exec acts n = some n') :
    n'.server.tickDuration = lastTick n.server.tickDuration acts := by
  induction acts generalizing n with
  | nil =>
    simp only [exec, Option.some.injEq] at hs
    subst hs
    rfl
  | cons a rest ih =>
    simp only [exec] at hs
    cases hst : step a n with
    | none => rw [hst] at hs; cases hs
    | some n1 =>
      rw [hst] at hs
      rw [lastTick_cons, ← step_tickDuration a n n1 hst]
      exact ih n1 hs

theorem lastTick_no_setTick (d0 : Int) (acts : List Action)
    (h : ∀ x, Action.setTick x ∉ acts) : lastTick d0 acts = d0 := by
  induction acts with
  | nil => rfl
  | cons a rest ih =>
    have hrest : ∀ x, Action.setTick x ∉ rest := fun x hx => h x (List.mem_cons_of_mem _ hx)
    cases a with
    | setTick d => exact absurd (List.mem_cons_self _ _) (h d)
    | runStep => exact ih hrest
    | roleReturns r => exact ih hrest
    | stopCall => exact ih hrest
    | stopStep => exact ih hrest
    | handOff => exact ih hrest

theorem lastTick_after_setTick (d0 x : Int) (pre post : List Action)
    (h : ∀ y, Action.setTick y ∉ post) : lastTick d0 (pre ++ .setTick x :: post) = x := by
  induction pre generalizing d0 with
  | nil => exact lastTick_no_setTick x post h
  | cons a rest ih =>
    rw [List.cons_append, lastTick_cons]
    exact ih _


theorem New_tickDuration (d : Int) (c : Config) (id : Int) (s : Server)
    (h : New d c id = .ok s) : s.tickDuration = d := by
  unfold New at h
  split at h
  · cases h
  · split at h
    · split at h
      · cases h
      · cases h; rfl
    · cases h; rfl

/-- C12: in every interleaving of `Run`, `Stop` and `SetTick` calls on the
server `New` returned, whenever `Run` is about to construct a participant the
server stores the interval of the most recent `SetTick` so far, the default if
there was none, and the participant is constructed with exactly that interval;
this is so for the first participant and for every later one.  In the
sequential case, every participant constructed by `Run` after `SetTick(x)` has
the interval `x`. -/
theorem participant_built_with_last_tick (d : Int) (c : Config) (id : Int) (s : Server)
    (acts : List Action) (n : Node)
    (hnew : New d c id = .ok s) (hex : exec acts (Node.start s) = some n)
    (hpc : n.run = .atSwitch participantMode) :
    n.server.tickDuration = lastTick d acts ∧
    (∃ n', step .runStep n = some n' ∧
      n'.server.p = some (newParticipant n.server.id n.server.pubAddr n.server.raftPubAddr
        n.server.nodes n.server.client n.server.peerHub (lastTick d acts)) ∧
      n'.events = n.events ++ [.newParticipant (newParticipant n.server.id n.server.pubAddr
        n.server.raftPubAddr n.server.nodes n.server.client n.server.peerHub
        (lastTick d acts))]) ∧
    ((∀ x, Action.setTick x ∉ acts) → lastTick d acts = d) ∧
    (∀ pre x post, acts = pre ++ .setTick x :: post → (∀ y, Action.setTick y ∉ post) →
      lastTick d acts = x) ∧
    (∀ receiver x rets p, Event.newParticipant p ∈ (Run receiver (SetTick s x) rets).events →
      p.tickDuration = x) := by
  have ht : n.server.tickDuration = lastTick d acts := by
    have := exec_tickDuration acts (Node.start s) n hex
    rw [this]
    show lastTick s.tickDuration acts = _
    rw [New_tickDuration d c id s hnew]
  refine ⟨ht, ?_, lastTick_no_setTick d acts, ?_, ?_⟩
  · have hstep : step .runStep n
        = some { n with
            server := { n.server with p := some (newParticipant n.server.id n.server.pubAddr
              n.server.raftPubAddr n.server.nodes n.server.client n.server.peerHub
              n.server.tickDuration) }
            run := .builtParticipant
            events := n.events ++ [.newParticipant (newParticipant n.server.id n.server.pubAddr
              n.server.raftPubAddr n.server.nodes n.server.client n.server.peerHub
              n.server.tickDuration)] } := by
      show stepRun n = _
      unfold stepRun
      rw [hpc]
      simp
    refine ⟨_, hstep, ?_, ?_⟩
    · rw [← ht]
    · rw [← ht]
  · rintro pre x post rfl hpost
    exact lastTick_after_setTick d x pre post hpost
  · intro receiver x rets p hp
    have := (runLoop_shared receiver (SetTick s x) (SetTick s x) participantMode rets
      (sharedWith_refl _)).2.2.1 p hp
    rw [this]
    rfl

theorem participant_built_with_last_tick_witness :
    New 100 exampleConfig 7 = .ok exampleServer ∧
    exec tickSchedule (Node.start exampleServer) = some tickNode ∧
    tickNode.run = .atSwitch participantMode ∧
    lastTick 100 tickSchedule = 70 ∧
    tickNode.server.tickDuration = lastTick 100 tickSchedule :=
  ⟨rfl, rfl, rfl, rfl,
    (participant_built_with_last_tick 100 exampleConfig 7 exampleServer tickSchedule tickNode
      rfl rfl rfl).1⟩

/-! ## `Stop` racing with a role that returns by itself -/

theorem stuck_step (a : Action) (n n' : Node)
    (hrun : n.run = .inStandbyRun) (hstop : n.stop = .atRecv)
    (ha : ∀ r, a ≠ .roleReturns r) (hs : step a n = some n') :
    n'.run = .inStandbyRun ∧ n'.stop = .atRecv ∧ n'.events = n.events ∧
    n'.server.mode = n.server.mode := by
  cases a with
  | runStep => simp [step, stepRun, hrun] at hs
  | roleReturns r => exact absurd rfl (ha r)
  | stopCall => simp [step, stepStopCall, hstop] at hs
  | stopStep => simp [step, stepStop, hstop] at hs
  | handOff => simp [step, stepHandOff, hrun] at hs
  | setTick d =>
    simp only [step, Option.some.injEq] at hs
    subst hs
    exact ⟨hrun, hstop, rfl, rfl⟩

theorem stuck_exec (acts : List Action) (n n' : Node)
    (hrun : n.run = .inStandbyRun) (hstop : n.stop = .atRecv)
    (ha : ∀ r, Action.roleReturns r ∉ acts) (hs : exec acts n = some n') :
    n'.run = .inStandbyRun ∧ n'.stop = .atRecv ∧ n'.events = n.events ∧
    n'.server.mode = n.server.mode := by
  induction acts generalizing n with
  | nil =>
    simp only [exec, Option.some.injEq] at hs
    subst hs
    exact ⟨hrun, hstop, rfl, rfl⟩
  | cons a rest ih =>
    simp only [exec] at hs
    cases hst : step a n with
    | none => rw [hst] at hs; cases hs
    | some n1 =>
      rw [hst] at hs
      have h1 := stuck_step a n n1 hrun hstop
        (fun r hr => ha r (by rw [hr]; exact List.mem_cons_self _ _)) hst
      have h2 := ih n1 h1.1 h1.2.1 (fun r hr => ha r (List.mem_cons_of_mem _ hr)) hs
      exact ⟨h2.1, h2.2.1, h2.2.2.1.trans h1.2.2.1, h2.2.2.2.trans h1.2.2.2⟩

/-- C18 (evaluated on the code): `Stop` is called while the first participant
runs and captures the mode participant; the participant then returns standby by
itself and `Run` installs and starts the standby; `Stop` writes stopped, calls
`stop()` on the participant that has already returned, and waits on `stopc`.
In the node reached no `stop()` was ever called on the running standby, neither
`Run` nor `Stop` can take a step, and whatever else happens `Run` stays inside
`s.s.run()` and `Stop` stays in its receive for as long as the standby does not
return by itself.  Without the race the same call of `Stop` ends with both
`Run` and `Stop` returned. -/
theorem Stop_race_leaves_standby_running :
    (exec raceSchedule (Node.start exampleServer)).map Node.run = some .inStandbyRun ∧
    (exec raceSchedule (Node.start exampleServer)).map Node.stop = some .atRecv ∧
    (exec raceSchedule (Node.start exampleServer)).map (fun n => n.server.mode)
      = some stopMode ∧
    (exec raceSchedule (Node.start exampleServer)).map Node.events
      = some [.newParticipant exampleServer.buildParticipant, .modeSet participantMode,
          .participantRun (some exampleServer.buildParticipant) standbyMode,
          .newStandby exampleServer.buildStandby, .modeSet standbyMode,
          .modeSet stopMode, .participantStop (some exampleServer.buildParticipant)] ∧
    (exec raceSchedule (Node.start exampleServer)).bind (step .runStep) = none ∧
    (exec raceSchedule (Node.start exampleServer)).bind (step .stopStep) = none ∧
    (exec raceSchedule (Node.start exampleServer)).bind (step .handOff) = none ∧
    (∀ acts n, (∀ r, Action.roleReturns r ∉ acts) →
      exec (raceSchedule ++ acts) (Node.start exampleServer) = some n →
      n.run = .inStandbyRun ∧ n.stop = .atRecv) ∧
    (exec calmSchedule (Node.start exampleServer)).map Node.run = some .returned ∧
    (exec calmSchedule (Node.start exampleServer)).map Node.stop = some (.returned true) := by
  refine ⟨rfl, rfl, rfl, rfl, rfl, rfl, rfl, ?_, rfl, rfl⟩
  intro acts n ha hex
  rw [exec_append] at hex
  cases hr : exec raceSchedule (Node.start exampleServer) with
  | none => rw [hr] at hex; cases hex
  | some n0 =>
    rw [hr] at hex
    have hrun : n0.run = .inStandbyRun := by
      have h : (exec raceSchedule (Node.start exampleServer)).map Node.run
          = some .inStandbyRun := rfl
      rw [hr] at h
      simpa using h
    have hstop : n0.stop = .atRecv := by
      have h : (exec raceSchedule (Node.start exampleServer)).map Node.stop
          = some .atRecv := rfl
      rw [hr] at h
      simpa using h
    have := stuck_exec acts n0 n hrun hstop ha hex
    exact ⟨this.1, this.2.1⟩

/-! ## No nil role is dereferenced -/

theorem Stop_events_installed (sender : Bool) (s : Server)
    (hp : s.mode = participantMode → s.p.isSome = true)
    (hs : s.mode = standbyMode → s.s.isSome = true) :
    ∀ e ∈ (Stop sender s).events, e.receiverInstalled = true := by
  intro e he
  by_cases h0 : s.mode = stopMode
  · simp [Stop, h0] at he
  · by_cases h1 : s.mode = participantMode
    · have hi := hp h1
      have h0' : ¬ participantMode = stopMode := by decide
      cases sender
      · simp [Stop, h1, h0'] at he
        rcases he with rfl | rfl
        · rfl
        · exact hi
      · simp [Stop, h1, h0'] at he
        rcases he with rfl | rfl | rfl
        · rfl
        · exact hi
        · rfl
    · by_cases h2 : s.mode = standbyMode
      · have hi := hs h2
        have h0' : ¬ standbyMode = stopMode := by decide
        have h1' : ¬ standbyMode = participantMode := by decide
        cases sender
        · simp [Stop, h2, h0', h1'] at he
          rcases he with rfl | rfl
          · rfl
          · exact hi
        · simp [Stop, h2, h0', h1'] at he
          rcases he with rfl | rfl | rfl
          · rfl
          · exact hi
          · rfl
      · cases sender
        · simp [Stop, h0, h1, h2] at he
          subst he
          rfl
        · simp [Stop, h0, h1, h2] at he
          rcases he with rfl | rfl <;> rfl

/-- C19: in every node reached from the server `New` returned by an
interleaving of statements of `Run` and `Stop`, returns of `run()` and calls of
`SetTick`, the participant is installed whenever the mode register holds
participant or standby and the standby is installed whenever it holds standby;
every call made on a role so far had an installed receiver, and `ServeHTTP`,
`ServeRaftHTTP` and `Stop` called on that node only reach installed roles. -/
theorem no_nil_role (d : Int) (c : Config) (id : Int) (s : Server)
    (acts : List Action) (n : Node)
    (hnew : New d c id = .ok s) (hex : exec acts (Node.start s) = some n) :
    ((n.server.mode = participantMode ∨ n.server.mode = standbyMode) →
      n.server.p.isSome = true) ∧
    (n.server.mode = standbyMode → n.server.s.isSome = true) ∧
    (∀ e ∈ n.events, e.receiverInstalled = true) ∧
    (∀ r, (ServeHTTP n.server r).receiverInstalled = true ∧
      (ServeRaftHTTP n.server r).receiverInstalled = true) ∧
    (∀ sender, ∀ e ∈ (Stop sender n.server).events, e.receiverInstalled = true) := by
  obtain ⟨h1, h2, _, _, _, h6⟩ :=
    rolesInstalled_exec acts (Node.start s) n (rolesInstalled_start d c id s hnew) hex
  refine ⟨h1, h2, h6, ?_, ?_⟩
  · intro r
    constructor
    · unfold ServeHTTP
      split
      · rename_i hm; exact h1 hm
      · rfl
    · unfold ServeRaftHTTP
      split
      · rename_i hm; exact h1 (Or.inl hm)
      · rfl
  · intro sender
    exact Stop_events_installed sender n.server (fun h => h1 (Or.inl h)) h2

theorem no_nil_role_witness :
    New 100 exampleConfig 7 = .ok exampleServer ∧
    exec [.runStep, .runStep] (Node.start exampleServer) = some participantNode ∧
    ((participantNode.server.mode = participantMode ∨
        participantNode.server.mode = standbyMode) →
      participantNode.server.p.isSome = true) :=
  ⟨rfl, rfl, (no_nil_role 100 exampleConfig 7 exampleServer [.runStep, .runStep]
    participantNode rfl rfl).1⟩

/-! ## The interleaved executions contain the sequential ones -/

theorem exec_runLoop (s : Server) (next : Int) (rets : List Int) (sp : StopPc)
    (evs : List Event) :
    ∃ acts, exec acts { server := s, run := .atSwitch next, stop := sp, events := evs }
      = some { server := (runLoop false s next rets).server
               run := outcomePc (runLoop false s next rets).outcome
               stop := sp
               events := evs ++ (runLoop false s next rets).events } := by
  induction rets generalizing s next evs with
  | nil =>
    by_cases h1 : next = participantMode
    · subst h1
      refine ⟨[.runStep, .runStep], ?_⟩
      rw [runLoop_participant_nil]
      simp [exec, step, stepRun, outcomePc, RunResult.events, Server.asParticipant,
        Server.buildParticipant]
    by_cases h2 : next = standbyMode
    · subst h2
      refine ⟨[.runStep, .runStep], ?_⟩
      rw [runLoop_standby_nil]
      simp [exec, step, stepRun, outcomePc, RunResult.events, Server.asStandby,
        Server.buildStandby, h1]
    by_cases h3 : next = stopMode
    · subst h3
      refine ⟨[.runStep, .runStep], ?_⟩
      rw [runLoop_stop]
      simp [exec, step, stepRun, outcomePc, RunResult.events, h1, h2]
    · refine ⟨[.runStep], ?_⟩
      rw [runLoop_other _ _ _ _ h1 h2 h3]
      simp [exec, step, stepRun, outcomePc, RunResult.events, h1, h2, h3]
  | cons ret rest ih =>
    by_cases h1 : next = participantMode
    · subst h1
      obtain ⟨acts, hacts⟩ := ih s.asParticipant ret
        (evs ++ [.newParticipant s.buildParticipant, .modeSet participantMode,
          .participantRun (some s.buildParticipant) ret])
      refine ⟨[.runStep, .runStep, .roleReturns ret] ++ acts, ?_⟩
      rw [exec_append, runLoop_participant_cons, events_after]
      have h0 : exec [.runStep, .runStep, .roleReturns ret]
          { server := s, run := .atSwitch participantMode, stop := sp, events := evs }
          = some { server := s.asParticipant, run := .atSwitch ret, stop := sp
                   events := evs ++ [.newParticipant s.buildParticipant,
                     .modeSet participantMode,
                     .participantRun (some s.buildParticipant) ret] } := by
        simp [exec, step, stepRun, stepRoleReturns, Server.asParticipant,
          Server.buildParticipant]
      rw [h0, Option.some_bind, hacts]
      simp [RunResult.after]
    by_cases h2 : next = standbyMode
    · subst h2
      obtain ⟨acts, hacts⟩ := ih s.asStandby ret
        (evs ++ [.newStandby s.buildStandby, .modeSet standbyMode,
          .standbyRun (some s.buildStandby) ret])
      refine ⟨[.runStep, .runStep, .roleReturns ret] ++ acts, ?_⟩
      rw [exec_append, runLoop_standby_cons, events_after]
      have h0 : exec [.runStep, .runStep, .roleReturns ret]
          { server := s, run := .atSwitch standbyMode, stop := sp, events := evs }
          = some { server := s.asStandby, run := .atSwitch ret, stop := sp
                   events := evs ++ [.newStandby s.buildStandby, .modeSet standbyMode,
                     .standbyRun (some s.buildStandby) ret] } := by
        simp [exec, step, stepRun, stepRoleReturns, Server.asStandby, Server.buildStandby, h1]
      rw [h0, Option.some_bind, hacts]
      simp [RunResult.after]
    by_cases h3 : next = stopMode
    · subst h3
      refine ⟨[.runStep, .runStep], ?_⟩
      rw [runLoop_stop]
      simp [exec, step, stepRun, outcomePc, RunResult.events, h1, h2]
    · refine ⟨[.runStep], ?_⟩
      rw [runLoop_other _ _ _ _ h1 h2 h3]
      simp [exec, step, stepRun, outcomePc, RunResult.events, h1, h2, h3]

theorem exec_Run (s : Server) (rets : List Int) :
    ∃ acts, exec acts (Node.start s)
      = some { server := (Run false s rets).server
               run := outcomePc (Run false s rets).outcome
               stop := .idle
               events := (Run false s rets).events } := by
  obtain ⟨acts, h⟩ := exec_runLoop s participantMode rets .idle []
  exact ⟨acts, by simpa [Node.start, Run] using h⟩

/-! ## A second `Stop` after a first one that raced with `Run` -/

theorem after_return_step (a : Action) (n n' : Node)
    (hrun : n.run = .returned) (hstop : n.stop = .atRecv) (hs : step a n = some n') :
    n'.run = .returned ∧ n'.stop = .atRecv := by
  cases a with
  | runStep => simp [step, stepRun, hrun] at hs
  | roleReturns r => simp [step, stepRoleReturns, hrun] at hs
  | stopCall => simp [step, stepStopCall, hstop] at hs
  | stopStep => simp [step, stepStop, hstop] at hs
  | handOff => simp [step, stepHandOff, hrun] at hs
  | setTick d =>
    simp only [step, Option.some.injEq] at hs
    subst hs
    exact ⟨hrun, hstop⟩

theorem after_return_exec (acts : List Action) (n n' : Node)
    (hrun : n.run = .returned) (hstop : n.stop = .atRecv) (hs : exec acts n = some n') :
    n'.run = .returned ∧ n'.stop = .atRecv := by
  induction acts generalizing n with
  | nil =>
    simp only [exec, Option.some.injEq] at hs
    subst hs
    exact ⟨hrun, hstop⟩
  | cons a rest ih =>
    simp only [exec] at hs
    cases hst : step a n with
    | none => rw [hst] at hs; cases hs
    | some n1 =>
      rw [hst] at hs
      have h1 := after_return_step a n n1 hrun hstop hst
      exact ih n1 h1.1 h1.2 hs

/-- C9 (evaluated on the code): a first `Stop` races with the participant, which
returns standby by itself after `Stop` wrote stopped; `Run` writes standby over
it; the standby later returns stopped, `Run` shuts down and the first `Stop`
returns, with the mode register holding standby, not stopped.  A second `Stop`
called then does not return at line 87: it writes stopped, so the server is no
longer as the first call left it, calls `s.s.stop()`, and waits in the receive
of line 97, where it stays whatever happens next since `Run` has returned.
After a first `Stop` without a race the second call returns at line 87 and
makes no call. -/
theorem second_Stop_after_race :
    (exec firstStopSchedule (Node.start exampleServer)).map Node.stop
      = some (.returned true) ∧
    (exec firstStopSchedule (Node.start exampleServer)).map Node.run = some .returned ∧
    (exec firstStopSchedule (Node.start exampleServer)).map (fun n => n.server.mode)
      = some standbyMode ∧
    (exec (firstStopSchedule ++ secondStopSchedule) (Node.start exampleServer)).map Node.stop
      = some .atRecv ∧
    (exec (firstStopSchedule ++ secondStopSchedule) (Node.start exampleServer)).map
        (fun n => n.server.mode) = some stopMode ∧
    (exec (firstStopSchedule ++ secondStopSchedule) (Node.start exampleServer)).map
        (fun n => n.server)
      ≠ (exec firstStopSchedule (Node.start exampleServer)).map (fun n => n.server) ∧
    (exec (firstStopSchedule ++ secondStopSchedule) (Node.start exampleServer)).map
        (fun n => n.events.drop 12)
      = some [.modeSet stopMode, .standbyStop (some exampleServer.buildStandby)] ∧
    (∀ acts n,
      exec ((firstStopSchedule ++ secondStopSchedule) ++ acts) (Node.start exampleServer)
        = some n → n.run = .returned ∧ n.stop = .atRecv) ∧
    (exec (calmSchedule ++ [.stopCall, .stopStep]) (Node.start exampleServer)).map Node.stop
      = some (.returned false) ∧
    (exec (calmSchedule ++ [.stopCall, .stopStep]) (Node.start exampleServer)).map Node.events
      = (exec calmSchedule (Node.start exampleServer)).map Node.events ∧
    (exec (calmSchedule ++ [.stopCall, .stopStep]) (Node.start exampleServer)).map
        (fun n => n.server)
      = (exec calmSchedule (Node.start exampleServer)).map (fun n => n.server) := by
  refine ⟨rfl, rfl, rfl, rfl, rfl, ?_, rfl, ?_, rfl, rfl, rfl⟩
  · intro h
    have h2 := congrArg (Option.map Server.mode) h
    simp only [Option.map_map] at h2
    have e1 : (exec (firstStopSchedule ++ secondStopSchedule) (Node.start exampleServer)).map
        (Server.mode ∘ fun n => n.server) = some stopMode := rfl
    have e2 : (exec firstStopSchedule (Node.start exampleServer)).map
        (Server.mode ∘ fun n => n.server) = some standbyMode := rfl
    rw [e1, e2] at h2
    exact absurd h2 (by decide)
  · intro acts n hex
    rw [exec_append] at hex
    cases hr : exec (firstStopSchedule ++ secondStopSchedule) (Node.start exampleServer) with
    | none => rw [hr] at hex; cases hex
    | some n0 =>
      rw [hr] at hex
      have hrun : n0.run = .returned := by
        have h : (exec (firstStopSchedule ++ secondStopSchedule)
            (Node.start exampleServer)).map Node.run = some .returned := rfl
        rw [hr] at h
        simpa using h
      have hstop : n0.stop = .atRecv := by
        have h : (exec (firstStopSchedule ++ secondStopSchedule)
            (Node.start exampleServer)).map Node.stop = some .atRecv := rfl
        rw [hr] at h
        simpa using h
      exact after_return_exec acts n0 n hrun hstop hex

end Etcd
